import Mathlib

/-!
Shallow embedding of the VAST Challenge 2022 preprocessing pipeline
(`src/data-processing/scripts/preprocess_financial.py` and
`src/data-processing/scripts/preprocess_turnover.py`) together with
theorems checking the natural-language specification against it.

Modelling conventions:
* pandas timestamps are modelled as natural numbers counting hours;
  `dayOf t = t / 24` models `.dt.date` and `monthOf t = t / 720` models
  `.dt.to_period("M")` (both are monotone truncations, which is the only
  property the scripts rely on);
* float columns are modelled as `Rat`; a pandas `NaN` cell is `Option.none`;
* a pandas DataFrame is a list of rows; `groupby` over a key is modelled by
  deduplicating the list of observed keys and filtering the rows per key
  (the group contents and per-key aggregates are exactly those of pandas;
  the order in which groups are emitted is irrelevant to every statement
  below, which looks rows up by key);
* `sort_values("timestamp")` followed by the pandas aggregations
  `"first"`/`"last"` (which skip nulls) is modelled by a stable
  minimum/maximum over the rows that carry a value: `stableMinByKey`
  returns the earliest row among those with the least key (ties broken by
  original position, as a stable sort does), `stableMaxByKey` the latest
  row among those with the greatest key.
-/

namespace Vast22

/-- Stable argmin: the first element attaining the minimal key, i.e. the head
of a stable sort by `key`. Models pandas `sort_values` + `first` (on the
sublist of non-null entries). -/
def stableMinByKey {α : Type} (key : α → Nat) : List α → Option α
  | [] => none
  | a :: l =>
    match stableMinByKey key l with
    | none => some a
    | some b => if key b < key a then some b else some a

/-- Stable argmax: the last element attaining the maximal key, i.e. the last
element of a stable sort by `key`. Models pandas `sort_values` + `last`. -/
def stableMaxByKey {α : Type} (key : α → Nat) : List α → Option α
  | [] => none
  | a :: l =>
    match stableMaxByKey key l with
    | none => some a
    | some b => if key a > key b then some a else some b

theorem stableMinByKey_mem {α : Type} (key : α → Nat) (l : List α) (b : α)
    (h : stableMinByKey key l = some b) : b ∈ l := by
  induction l with
  | nil => simp [stableMinByKey] at h
  | cons a l ih =>
    simp only [stableMinByKey] at h
    cases hm : stableMinByKey key l with
    | none => rw [hm] at h; simp at h; simp [h]
    | some c =>
      rw [hm] at h
      by_cases hlt : key c < key a
      · simp [hlt] at h; subst h; exact List.mem_cons_of_mem _ (ih hm)
      · simp [hlt] at h; simp [h]

theorem stableMinByKey_eq_none {α : Type} (key : α → Nat) (l : List α) :
    stableMinByKey key l = none ↔ l = [] := by
  cases l with
  | nil => simp [stableMinByKey]
  | cons a l =>
    simp only [stableMinByKey]
    cases stableMinByKey key l <;> simp
    split <;> simp

theorem stableMaxByKey_mem {α : Type} (key : α → Nat) (l : List α) (b : α)
    (h : stableMaxByKey key l = some b) : b ∈ l := by
  induction l with
  | nil => simp [stableMaxByKey] at h
  | cons a l ih =>
    simp only [stableMaxByKey] at h
    cases hm : stableMaxByKey key l with
    | none => rw [hm] at h; simp at h; simp [h]
    | some c =>
      rw [hm] at h
      by_cases hlt : key a > key c
      · simp [hlt] at h; simp [h]
      · simp [hlt] at h; subst h; exact List.mem_cons_of_mem _ (ih hm)

/-- When no two elements share a key, the stable argmin is the unique
element with the least key. -/
theorem stableMinByKey_spec {α : Type} (key : α → Nat) (l : List α) (a : α)
    (ha : a ∈ l) (hmin : ∀ b ∈ l, key a ≤ key b) (hnd : (l.map key).Nodup) :
    stableMinByKey key l = some a := by
  induction l with
  | nil => simp at ha
  | cons a0 l ih =>
    simp only [List.map_cons, List.nodup_cons] at hnd
    rcases List.mem_cons.mp ha with rfl | hal
    · simp only [stableMinByKey]
      cases hm : stableMinByKey key l with
      | none => rfl
      | some b =>
        have hb := stableMinByKey_mem key l b hm
        have : ¬ key b < key a := not_lt.mpr (hmin b (List.mem_cons_of_mem _ hb))
        simp [this]
    · have hne : key a ≠ key a0 := by
        intro hEq
        exact hnd.1 (hEq ▸ List.mem_map_of_mem key hal)
      have hlt : key a < key a0 :=
        lt_of_le_of_ne (hmin a0 (List.mem_cons_self _ _)) hne
      simp only [stableMinByKey]
      rw [ih hal (fun b hb => hmin b (List.mem_cons_of_mem _ hb)) hnd.2]
      simp [hlt]

/-- When no two elements share a key, the stable argmax is the unique
element with the greatest key. -/
theorem stableMaxByKey_spec {α : Type} (key : α → Nat) (l : List α) (a : α)
    (ha : a ∈ l) (hmax : ∀ b ∈ l, key b ≤ key a) (hnd : (l.map key).Nodup) :
    stableMaxByKey key l = some a := by
  induction l with
  | nil => simp at ha
  | cons a0 l ih =>
    simp only [List.map_cons, List.nodup_cons] at hnd
    rcases List.mem_cons.mp ha with rfl | hal
    · simp only [stableMaxByKey]
      cases hm : stableMaxByKey key l with
      | none => rfl
      | some b =>
        have hb := stableMaxByKey_mem key l b hm
        have hble : key b ≤ key a := hmax b (List.mem_cons_of_mem _ hb)
        have hne : key b ≠ key a := by
          intro hEq
          exact hnd.1 (hEq ▸ List.mem_map_of_mem key hb)
        have : key a > key b := lt_of_le_of_ne hble hne
        simp [this]
    · have hne : key a ≠ key a0 := by
        intro hEq
        exact hnd.1 (hEq ▸ List.mem_map_of_mem key hal)
      have hlt : ¬ key a0 > key a := not_lt.mpr (hmax a0 (List.mem_cons_self _ _))
      simp only [stableMaxByKey]
      rw [ih hal (fun b hb => hmax b (List.mem_cons_of_mem _ hb)) hnd.2]
      simp [hlt]

/-- A grouped table is a list of per-key rows built over a key list; `find?`
by key returns the row built for that key (first occurrence wins, and the
built row carries its key). -/
theorem find?_map_build {κ β : Type} [DecidableEq κ] (keys : List κ)
    (build : κ → β) (keyOf : β → κ) (hk : ∀ k, keyOf (build k) = k)
    (k : κ) (hmem : k ∈ keys) :
    (keys.map build).find? (fun b => decide (keyOf b = k)) = some (build k) := by
  induction keys with
  | nil => simp at hmem
  | cons k0 ks ih =>
    by_cases h0 : k0 = k
    · subst h0
      simp [List.find?_cons, hk]
    · have : (decide (keyOf (build k0) = k)) = false := by
        simp [hk, h0]
      simp only [List.map_cons, List.find?_cons, this]
      exact ih (List.mem_cons.mp hmem |>.resolve_left (fun h => h0 h.symm))

theorem find?_map_build_eq_none {κ β : Type} [DecidableEq κ] (keys : List κ)
    (build : κ → β) (keyOf : β → κ) (hk : ∀ k, keyOf (build k) = k)
    (k : κ) (hmem : k ∉ keys) :
    (keys.map build).find? (fun b => decide (keyOf b = k)) = none := by
  rw [List.find?_eq_none]
  intro x hx
  rcases List.mem_map.mp hx with ⟨k1, hk1, rfl⟩
  simp only [hk, decide_eq_true_eq]
  intro h
  exact hmem (h ▸ hk1)

/-!
Activity-log balance aggregation, `preprocess_financial.py` lines 46-119.
The script reads columns timestamp, participantId, availableBalance from
each `ParticipantStatusLogs*.csv` file.  `participantId` is read with dtype
int64 (never null), `availableBalance` with dtype float64 (may be NaN),
`timestamp` is parsed to datetime (may be NaT).
-/

/-- One raw CSV row of a log file as read at line 59 (before any dropna). -/
structure RawLogRow where
  timestamp : Option Nat
  participantId : Nat
  availableBalance : Option Rat
deriving DecidableEq, Repr

/-- A log row after `dropna(subset=["timestamp"])` (line 68). -/
structure LogRow where
  timestamp : Nat
  participantId : Nat
  availableBalance : Option Rat
deriving DecidableEq, Repr

/-- Truncation of a timestamp (hours) to its calendar day, models `.dt.date`. -/
def dayOf (t : Nat) : Nat := t / 24

/-- Truncation of a timestamp to its month index, models `.dt.to_period("M")`. -/
def monthOf (t : Nat) : Nat := dayOf t / 30

/-- Line 68: drop rows whose timestamp failed to parse. -/
def dropnaTimestamp (rows : List RawLogRow) : List LogRow :=
  rows.filterMap fun r => r.timestamp.map fun t =>
    { timestamp := t, participantId := r.participantId,
      availableBalance := r.availableBalance }

/-- The groupby key of line 74: (participantId, Month). -/
def logKey (r : LogRow) : Nat × Nat := (r.participantId, monthOf r.timestamp)

/-- The (timestamp, value) pairs of the rows whose availableBalance is not
NaN, in original row order.  pandas `first`/`last`/`mean` aggregations skip
NaN, so they only ever see these readings. -/
def valuedReadings (rows : List LogRow) : List (Nat × Rat) :=
  rows.filterMap fun r => r.availableBalance.map fun v => (r.timestamp, v)

/-- The per-chunk aggregate record produced at lines 72-81.  Note the record
carries exactly the three aggregated columns (plus the key); the script
emits no row-count column. -/
structure PartialAgg where
  participantId : Nat
  month : Nat
  chunk_start_balance : Option Rat
  chunk_end_balance : Option Rat
  chunk_mean_balance : Option Rat
deriving DecidableEq, Repr

def partialKey (p : PartialAgg) : Nat × Nat := (p.participantId, p.month)

/-- The rows of one file that survive the timestamp dropna and belong to the
group `k`. -/
def keyRows (file : List RawLogRow) (k : Nat × Nat) : List LogRow :=
  (dropnaTimestamp file).filter fun r => decide (logKey r = k)

/-- The aggregate record for one (participantId, Month) group of one file:
`first` = value of the least-timestamp valued reading (stable: pandas sorts
by timestamp, stably, then takes the first non-null), `last` = value of the
greatest-timestamp valued reading, `mean` = arithmetic mean of the valued
readings (NaN, i.e. `none`, if there are none). -/
def chunkAggOf (file : List RawLogRow) (k : Nat × Nat) : PartialAgg :=
  let vr := valuedReadings (keyRows file k)
  { participantId := k.1, month := k.2,
    chunk_start_balance := (stableMinByKey Prod.fst vr).map Prod.snd,
    chunk_end_balance := (stableMaxByKey Prod.fst vr).map Prod.snd,
    chunk_mean_balance :=
      if vr.isEmpty then none else some ((vr.map Prod.snd).sum / vr.length) }

/-- Lines 72-81: sort the chunk by timestamp and aggregate
first/last/mean availableBalance per (participantId, Month) group.
One record per observed group. -/
def chunk_summary (file : List RawLogRow) : List PartialAgg :=
  (((dropnaTimestamp file).map logKey).dedup).map (chunkAggOf file)

/-- Line 102: concatenation of the per-file summaries, in file-discovery
order.  (Line 83 skips empty summaries, which changes nothing in the
concatenation.) -/
def allPartials (files : List (List RawLogRow)) : List PartialAgg :=
  (files.map chunk_summary).flatten

/-- pandas groupby aggregation "first": first non-null entry in group order. -/
def firstSome (l : List (Option Rat)) : Option Rat := l.findSome? id

/-- pandas groupby aggregation "last": last non-null entry in group order. -/
def lastSome (l : List (Option Rat)) : Option Rat := l.reverse.findSome? id

/-- pandas groupby aggregation "mean": mean of the non-null entries. -/
def meanSome (l : List (Option Rat)) : Option Rat :=
  let vs := l.filterMap id
  if vs.isEmpty then none else some (vs.sum / vs.length)

/-- One row of the combined monthly balance table (lines 105-114). -/
structure BalanceRow where
  participantId : Nat
  month : Nat
  start_balance : Option Rat
  end_balance : Option Rat
  mean_balance_approx : Option Rat
deriving DecidableEq, Repr

def balanceKey (b : BalanceRow) : Nat × Nat := (b.participantId, b.month)

/-- The re-aggregated row for key `k`: the partials are sorted stably by
Month only (line 106), which leaves the concatenation order untouched
inside each (participantId, Month) group, so the group seen by the second
groupby is the filter of the concatenation in file order. -/
def balanceRowOf (ps : List PartialAgg) (k : Nat × Nat) : BalanceRow :=
  let g := ps.filter fun p => decide (partialKey p = k)
  { participantId := k.1, month := k.2,
    start_balance := firstSome (g.map (fun p => p.chunk_start_balance)),
    end_balance := lastSome (g.map (fun p => p.chunk_end_balance)),
    mean_balance_approx := meanSome (g.map (fun p => p.chunk_mean_balance)) }

/-- Lines 105-114: group the concatenated partials on (participantId, Month)
and take first chunk-start, last chunk-end, mean of chunk-means. -/
def monthly_balances (files : List (List RawLogRow)) : List BalanceRow :=
  let ps := allPartials files
  ((ps.map partialKey).dedup).map (balanceRowOf ps)

/-- The pandas dtype of the Month column, tracked because line 119 applies
the `.dt` accessor to it, which raises unless the column is
datetime-like. -/
inductive ColDtype
  | object
  | periodM
  | datetime
deriving DecidableEq, Repr

/-- The monthly balance table together with the dtype of its Month column. -/
structure BalancesFrame where
  rows : List BalanceRow
  monthDtype : ColDtype
deriving DecidableEq, Repr

/-- Lines 95-117: if no chunk produced any aggregate, substitute an empty
DataFrame built with `pd.DataFrame(columns=[...])`, whose columns all have
dtype object; otherwise the combined table, whose Month column has the
period dtype produced by `.dt.to_period("M")`. -/
def monthly_balances_df (files : List (List RawLogRow)) : BalancesFrame :=
  if (allPartials files).isEmpty then
    { rows := [], monthDtype := ColDtype.object }
  else
    { rows := monthly_balances files, monthDtype := ColDtype.periodM }

def dtAccessorError : String :=
  "AttributeError: Can only use .dt accessor with datetimelike values"

/-- Line 119: `monthly_balances_df["Month"].dt.to_timestamp()`.  The `.dt`
accessor raises AttributeError unless the column dtype is datetime-like;
the empty fallback frame of line 97 has object dtype, so the statement
raises there and the script aborts with no output. -/
def monthToTimestamp (f : BalancesFrame) : Except String (List BalanceRow) :=
  if f.monthDtype = ColDtype.periodM then Except.ok f.rows
  else Except.error dtAccessorError

/-!
Financial journal processing, `preprocess_financial.py` lines 125-192.
The journal is read with `category` as dtype "category" (its category set is
the set of all values observed in the raw file) and `participantId` as int64
(never null); rows are dropped when timestamp is NaT (line 140).
-/

structure RawJournalRow where
  timestamp : Option Nat
  participantId : Nat
  category : String
  amount : Rat
deriving DecidableEq, Repr

structure JournalRow where
  timestamp : Nat
  participantId : Nat
  category : String
  amount : Rat
deriving DecidableEq, Repr

/-- Line 140: `dropna(subset=["timestamp", "participantId"])` (participantId
has dtype int64 and is never null, so only the timestamp matters). -/
def journalRows (raw : List RawJournalRow) : List JournalRow :=
  raw.filterMap fun r => r.timestamp.map fun t =>
    { timestamp := t, participantId := r.participantId,
      category := r.category, amount := r.amount }

def jKey (r : JournalRow) : Nat × Nat := (r.participantId, monthOf r.timestamp)

/-- Line 144-145: the income stream, `category == "Wage"`. -/
def incomeTrans (rows : List JournalRow) : List JournalRow :=
  rows.filter fun r => decide (r.category = "Wage")

/-- Line 146: the expense stream, everything that is not "Wage". -/
def expenseTrans (rows : List JournalRow) : List JournalRow :=
  rows.filter fun r => decide (¬ r.category = "Wage")

structure IncomeRow where
  participantId : Nat
  month : Nat
  logged_income_total : Rat
  logged_income_count : Nat
deriving DecidableEq, Repr

def incomeKey (i : IncomeRow) : Nat × Nat := (i.participantId, i.month)

def incomeRowOf (it : List JournalRow) (k : Nat × Nat) : IncomeRow :=
  let g := it.filter fun r => decide (jKey r = k)
  { participantId := k.1, month := k.2,
    logged_income_total := (g.map fun r => r.amount).sum,
    logged_income_count := g.length }

/-- Lines 149-154: income aggregated per observed (participantId, Month). -/
def df_income (raw : List RawJournalRow) : List IncomeRow :=
  let it := incomeTrans (journalRows raw)
  ((it.map jKey).dedup).map (incomeRowOf it)

/-- The category set of the journal's categorical dtype: every category value
observed anywhere in the raw file (assigned at read time, line 135, before
any filtering, so it includes "Wage" and categories of rows later dropped).
The column order of the pivot is irrelevant to every statement below. -/
def expCats (raw : List RawJournalRow) : List String :=
  (raw.map fun r => r.category).dedup

/-- The expense transactions of one (participantId, Month) key. -/
def keyExpenses (raw : List RawJournalRow) (k : Nat × Nat) : List JournalRow :=
  (expenseTrans (journalRows raw)).filter fun r => decide (jKey r = k)

/-- The expense transactions of one (participantId, Month, category) cell. -/
def keyCatExpenses (raw : List RawJournalRow) (k : Nat × Nat) (c : String) :
    List JournalRow :=
  (expenseTrans (journalRows raw)).filter fun r =>
    decide (jKey r = k ∧ r.category = c)

/-- One row of the pivoted expense table (lines 159-182): for every category
of the dtype a (amount_total, transaction_count) cell pair, plus the derived
row-wise totals of lines 179 and 182. -/
structure PivotRow where
  participantId : Nat
  month : Nat
  cells : List (String × Rat × Nat)
  logged_expense_total : Rat
  logged_expense_count : Nat
deriving DecidableEq, Repr

def pivotKey (p : PivotRow) : Nat × Nat := (p.participantId, p.month)

/-- The row index of the pivot.  `groupby(..., observed=False)` with a
categorical grouper builds the cartesian product of the levels of every
grouper: each observed participantId crossed with each observed Month of the
expense stream (crossed with every category, which `unstack` then turns into
columns). -/
def pivotKeys (et : List JournalRow) : List (Nat × Nat) :=
  ((et.map fun r => r.participantId).dedup).flatMap fun p =>
    ((et.map fun r => monthOf r.timestamp).dedup).map fun m => (p, m)

def pivotRowOf (raw : List RawJournalRow) (k : Nat × Nat) : PivotRow :=
  let cells := (expCats raw).map fun c =>
    (c, ((keyCatExpenses raw k c).map fun r => r.amount).sum,
     (keyCatExpenses raw k c).length)
  { participantId := k.1, month := k.2, cells := cells,
    logged_expense_total := (cells.map fun x => x.2.1).sum,
    logged_expense_count := (cells.map fun x => x.2.2).sum }

/-- Lines 158-182: group the expense stream by (participantId, Month,
category) with `observed=False` (sum of an empty group is 0, count 0),
unstack the categories into columns with `fill_value=0`, then derive the
row totals by summing the amount columns and the count columns.  Empty when
the expense stream is empty (the `if not df_expense_trans.empty` guard). -/
def df_expenses_pivot (raw : List RawJournalRow) : List PivotRow :=
  (pivotKeys (expenseTrans (journalRows raw))).map (pivotRowOf raw)

/-!
Demographics, `preprocess_financial.py` lines 198-255.  A participant row
after numeric coercion: `age` and `householdSize` via
`pd.to_numeric(..., errors="coerce")` (a non-numeric value becomes `none`)
followed by `astype("Int64")`, `joviality` via `pd.to_numeric`, `haveKids`
via `astype("boolean")`.
-/

structure ParticipantRow where
  participantId : Nat
  householdSize : Option Int
  haveKids : Option Bool
  age : Option Int
  educationLevel : Option String
  interestGroup : Option String
  joviality : Option Rat
deriving DecidableEq, Repr

/-- Lines 208-215: birthYear = currentYear - age, then
`pd.cut(birthYear, bins=[1900, 1965, 1981, 1997, currentYear+1],
right=False)` with the four generation labels, NaN filled "Unknown".
With `right=False` each bin is closed on the left and open on the right;
a birth year outside every bin is NaN, hence "Unknown".  (pd.cut requires
strictly increasing bins, i.e. a run year of 1997 or later.) -/
def age_group (currentYear : Int) (age : Option Int) : String :=
  match age with
  | none => "Unknown"
  | some a =>
    let b := currentYear - a
    if 1900 ≤ b ∧ b < 1965 then "Boomer+ (<1965)"
    else if 1965 ≤ b ∧ b < 1981 then "Gen X (1965-80)"
    else if 1981 ≤ b ∧ b < 1997 then "Millennial (1981-96)"
    else if 1997 ≤ b ∧ b < currentYear + 1 then "Gen Z (1997+)"
    else "Unknown"

/-- Lines 218-225: `pd.cut(joviality, bins=[-inf, 0.33, 0.66, inf],
right=False)` with labels Low/Medium/High, NaN filled "Unknown".  Every
finite value falls in a bin: below 0.33 (including negatives) is Low,
0.66 and above (including values above 1) is High; only a missing or
non-numeric joviality becomes "Unknown". -/
def joviality_group (j : Option Rat) : String :=
  match j with
  | none => "Unknown"
  | some v =>
    if v < 33 / 100 then "Low (0-0.33)"
    else if v < 66 / 100 then "Medium (0.33-0.66)"
    else "High (0.66+)"

/-- Lines 228-235: stringify the Int64 household size, replace "5".."8" by
"5+" and the NA marker by "Unknown". -/
def household_size_group (h : Option Int) : String :=
  match h with
  | none => "Unknown"
  | some n => if 5 ≤ n ∧ n ≤ 8 then "5+" else toString n

/-- Lines 238-241: three-valued kids flag. -/
def haveKids_group (k : Option Bool) : String :=
  match k with
  | none => "Unknown"
  | some true => "Has Kids"
  | some false => "No Kids"

/-!
Grid merge, fill and finalization, `preprocess_financial.py` lines 263-363.
A merged-table cell is a pandas cell: a float, a string, a boolean or NaN.
-/

inductive CellV
  | num (q : Rat)
  | str (s : String)
  | boolV (b : Bool)
  | missing
deriving DecidableEq, Repr

def ofOptRat : Option Rat → CellV
  | none => CellV.missing
  | some q => CellV.num q

def ofOptInt : Option Int → CellV
  | none => CellV.missing
  | some n => CellV.num (n : Rat)

def ofOptBool : Option Bool → CellV
  | none => CellV.missing
  | some b => CellV.boolV b

/-- One row of the merged table.  `cells` holds the per-category
(amount, count) cell pair for each expense category column; it is `[]`
while those columns do not exist yet (before the expense merge, or when
the expense source is empty and the columns are never created). -/
structure MRow where
  participantId : Nat
  month : Nat
  start_balance : CellV := CellV.missing
  end_balance : CellV := CellV.missing
  mean_balance_approx : CellV := CellV.missing
  age : CellV := CellV.missing
  householdSize : CellV := CellV.missing
  haveKids : CellV := CellV.missing
  joviality : CellV := CellV.missing
  educationLevel : CellV := CellV.missing
  interestGroup : CellV := CellV.missing
  age_group : CellV := CellV.missing
  joviality_group : CellV := CellV.missing
  household_size_group : CellV := CellV.missing
  haveKids_group : CellV := CellV.missing
  logged_income_total : CellV := CellV.missing
  logged_income_count : CellV := CellV.missing
  cells : List (String × CellV × CellV) := []
  logged_expense_total : CellV := CellV.missing
  logged_expense_count : CellV := CellV.missing
  mean_balance : CellV := CellV.missing
  net_logged_change : CellV := CellV.missing
deriving DecidableEq, Repr

def mKey (r : MRow) : Nat × Nat := (r.participantId, r.month)

def noDataError : String := "ERROR: No data available to merge."

/-- The merged-table row a balance row becomes when the balance table is
taken as the base of the grid (line 270). -/
def mbToGrid (mb : List BalanceRow) : List MRow :=
  mb.map fun b =>
    { participantId := b.participantId, month := b.month,
      start_balance := ofOptRat b.start_balance,
      end_balance := ofOptRat b.end_balance,
      mean_balance_approx := ofOptRat b.mean_balance_approx }

/-- Lines 268-277: the canonical grid.  The balance table if non-empty,
else the deduplicated (participantId, Month) pairs of the expense pivot,
else of the income table, else abort via `exit()`.  (The two fallback
branches are unreachable in a real run: an empty balance table already
aborted at line 119, see `monthToTimestamp`.) -/
def baseGrid (mb : List BalanceRow) (pv : List PivotRow) (inc : List IncomeRow) :
    Except String (List MRow) :=
  if ¬ mb.isEmpty then
    Except.ok (mbToGrid mb)
  else if ¬ pv.isEmpty then
    Except.ok (((pv.map pivotKey).dedup).map fun k =>
      { participantId := k.1, month := k.2 })
  else if ¬ inc.isEmpty then
    Except.ok (((inc.map incomeKey).dedup).map fun k =>
      { participantId := k.1, month := k.2 })
  else Except.error noDataError

/-- The demographic payload a grid row receives from its participant row. -/
def demoUpdate (cy : Int) (p : ParticipantRow) (r : MRow) : MRow :=
  { r with
    age := ofOptInt p.age,
    householdSize := ofOptInt p.householdSize,
    haveKids := ofOptBool p.haveKids,
    joviality := ofOptRat p.joviality,
    educationLevel := CellV.str (p.educationLevel.getD "Unknown"),
    interestGroup := CellV.str (p.interestGroup.getD "Unknown"),
    age_group := CellV.str (age_group cy p.age),
    joviality_group := CellV.str (joviality_group p.joviality),
    household_size_group := CellV.str (household_size_group p.householdSize),
    haveKids_group := CellV.str (haveKids_group p.haveKids) }

/-- The demographic lookup one grid row undergoes in the left merge. -/
def demoApply (cy : Int) (parts : List ParticipantRow) (r : MRow) : MRow :=
  match parts.find? (fun p => decide (p.participantId = r.participantId)) with
  | none => r
  | some p => demoUpdate cy p r

/-- Lines 282-284: left merge of the demographics on participantId only,
skipped when the participants table is empty.  The participants file has
one row per participant, so the merge is a lookup. -/
def mergeDemo (cy : Int) (parts : List ParticipantRow) (grid : List MRow) :
    List MRow :=
  if parts.isEmpty then grid
  else grid.map (demoApply cy parts)

def incomeUpdate (i : IncomeRow) (r : MRow) : MRow :=
  { r with logged_income_total := CellV.num i.logged_income_total,
           logged_income_count := CellV.num (i.logged_income_count : Rat) }

def newIncomeRow (i : IncomeRow) : MRow :=
  { participantId := i.participantId, month := i.month,
    logged_income_total := CellV.num i.logged_income_total,
    logged_income_count := CellV.num (i.logged_income_count : Rat) }

/-- The income lookup one grid row undergoes in the outer merge. -/
def incomeApply (inc : List IncomeRow) (r : MRow) : MRow :=
  match inc.find? (fun i => decide (incomeKey i = mKey r)) with
  | none => r
  | some i => incomeUpdate i r

/-- Line 291: the scalar-0.0 income columns created when the income table is
empty. -/
def incomeZero (r : MRow) : MRow :=
  { r with logged_income_total := CellV.num 0,
           logged_income_count := CellV.num 0 }

/-- Lines 287-291: outer merge of the income table on (participantId, Month):
matched grid rows receive the income cells, unmatched income keys append new
rows whose other cells are all NaN.  When the income table is empty the two
income columns are instead created as scalar 0.0 (line 291). -/
def mergeIncome (inc : List IncomeRow) (grid : List MRow) : List MRow :=
  if inc.isEmpty then
    grid.map incomeZero
  else
    (grid.map (incomeApply inc))
    ++ ((inc.filter fun i =>
          decide (incomeKey i ∉ grid.map mKey)).map newIncomeRow)

def expenseUpdate (x : PivotRow) (r : MRow) : MRow :=
  { r with
    cells := x.cells.map fun c => (c.1, CellV.num c.2.1, CellV.num (c.2.2 : Rat)),
    logged_expense_total := CellV.num x.logged_expense_total,
    logged_expense_count := CellV.num (x.logged_expense_count : Rat) }

def newPivotRow (x : PivotRow) : MRow :=
  { participantId := x.participantId, month := x.month,
    cells := x.cells.map fun c => (c.1, CellV.num c.2.1, CellV.num (c.2.2 : Rat)),
    logged_expense_total := CellV.num x.logged_expense_total,
    logged_expense_count := CellV.num (x.logged_expense_count : Rat) }

/-- The expense-pivot lookup one grid row undergoes in the outer merge; an
unmatched grid row gets a NaN cell in every per-category column. -/
def expenseApply (cats : List String) (pv : List PivotRow) (r : MRow) : MRow :=
  match pv.find? (fun x => decide (pivotKey x = mKey r)) with
  | none => { r with cells := cats.map fun c => (c, CellV.missing, CellV.missing) }
  | some x => expenseUpdate x r

/-- Line 302: the scalar-0.0 expense total columns created when the pivot is
empty. -/
def expenseZero (r : MRow) : MRow :=
  { r with logged_expense_total := CellV.num 0,
           logged_expense_count := CellV.num 0 }

/-- Lines 294-302: outer merge of the expense pivot on (participantId,
Month); unmatched grid rows get NaN in every expense column (the
per-category cell pairs included), unmatched pivot keys append new rows.
When the pivot is empty only the two total columns are created, as scalar
0.0 (line 302). -/
def mergeExpenses (cats : List String) (pv : List PivotRow) (grid : List MRow) :
    List MRow :=
  if pv.isEmpty then
    grid.map expenseZero
  else
    (grid.map (expenseApply cats pv))
    ++ ((pv.filter fun x =>
          decide (pivotKey x ∉ grid.map mKey)).map newPivotRow)

/-- NaN-filling of a financial column cell (`fillna(0)`, lines 319-321). -/
def fill0 : CellV → CellV
  | CellV.missing => CellV.num 0
  | c => c

/-- NaN-filling of a demographic group column cell (`fillna("Unknown")`,
lines 328-333). -/
def fillUnknown : CellV → CellV
  | CellV.missing => CellV.str "Unknown"
  | c => c

/-- Pandas subtraction of two cells; NaN propagates. -/
def cellSub : CellV → CellV → CellV
  | CellV.num a, CellV.num b => CellV.num (a - b)
  | _, _ => CellV.missing

/-- Lines 310-337.  `financial_fill_cols` (filled with 0) is exactly the
income/expense totals and counts, the three balance columns and the
per-category amount and count columns; `demo_group_cols` (filled with
"Unknown") is exactly the four derived group columns plus educationLevel
and interestGroup.  The raw attribute columns age, householdSize, haveKids
and joviality appear in neither list and keep their NaN.  Lines 336-337
then derive mean_balance and net_logged_change from the filled columns. -/
def postProcess (r : MRow) : MRow :=
  let r1 : MRow :=
    { r with
      logged_income_total := fill0 r.logged_income_total,
      logged_income_count := fill0 r.logged_income_count,
      logged_expense_total := fill0 r.logged_expense_total,
      logged_expense_count := fill0 r.logged_expense_count,
      start_balance := fill0 r.start_balance,
      end_balance := fill0 r.end_balance,
      mean_balance_approx := fill0 r.mean_balance_approx,
      cells := r.cells.map fun x => (x.1, fill0 x.2.1, fill0 x.2.2),
      age_group := fillUnknown r.age_group,
      joviality_group := fillUnknown r.joviality_group,
      household_size_group := fillUnknown r.household_size_group,
      haveKids_group := fillUnknown r.haveKids_group,
      educationLevel := fillUnknown r.educationLevel,
      interestGroup := fillUnknown r.interestGroup }
  { r1 with
    mean_balance := r1.mean_balance_approx,
    net_logged_change := cellSub r1.logged_income_total r1.logged_expense_total }

/-- Lines 354-357: a final-schema column absent from the merged table is
synthesized with a scalar default.  The demographic columns are absent
exactly when the participants table was empty (the merge of line 283 was
skipped); each of their names lacks "total", "balance", "change" and
"count", so each is created as the string "Unknown" — the whole column,
including the raw age, householdSize, haveKids and joviality columns.  All
other final-schema columns always exist by this point. -/
def addMissingDemo (parts : List ParticipantRow) (r : MRow) : MRow :=
  if parts.isEmpty then
    { r with
      age := CellV.str "Unknown", householdSize := CellV.str "Unknown",
      haveKids := CellV.str "Unknown", joviality := CellV.str "Unknown",
      age_group := CellV.str "Unknown", joviality_group := CellV.str "Unknown",
      household_size_group := CellV.str "Unknown",
      haveKids_group := CellV.str "Unknown",
      educationLevel := CellV.str "Unknown",
      interestGroup := CellV.str "Unknown" }
  else r

/-- The whole financial pipeline, parameterized by the wall-clock year
`pd.Timestamp("now").year` read at line 209.  An `Except.error` is an
uncaught exception or `exit()`: the script terminates and nothing is
written to the output file. -/
def run_pipeline (cy : Int) (files : List (List RawLogRow))
    (journal : List RawJournalRow) (parts : List ParticipantRow) :
    Except String (List MRow) := do
  let mb ← monthToTimestamp (monthly_balances_df files)
  let inc := df_income journal
  let pv := df_expenses_pivot journal
  let grid ← baseGrid mb pv inc
  let g1 := mergeDemo cy parts grid
  let g2 := mergeIncome inc g1
  let g3 := mergeExpenses (expCats journal) pv g2
  Except.ok ((g3.map postProcess).map (addMissingDemo parts))

/-- The EntityPeriodKeys of the canonical base grid (the balance table). -/
def baseKeys (files : List (List RawLogRow)) : List (Nat × Nat) :=
  (monthly_balances files).map balanceKey

/-- A cell holding a float (neither a string, nor a boolean, nor NaN). -/
def CellV.isNum : CellV → Bool
  | CellV.num _ => true
  | _ => false

/-- A cell that is not a missing marker. -/
def CellV.filled : CellV → Bool
  | CellV.missing => false
  | _ => true

/-- A cell of a float column: a float or NaN (what the financial columns
hold at every stage before the fill). -/
def CellV.numOrNaN : CellV → Bool
  | CellV.num _ => true
  | CellV.missing => true
  | _ => false

/-- The invariant of the financial columns through the merge sequence:
every financial cell, the per-category cells included, is a float or NaN. -/
def finOk (r : MRow) : Bool :=
  r.start_balance.numOrNaN && r.end_balance.numOrNaN &&
  r.mean_balance_approx.numOrNaN &&
  r.logged_income_total.numOrNaN && r.logged_income_count.numOrNaN &&
  r.logged_expense_total.numOrNaN && r.logged_expense_count.numOrNaN &&
  r.cells.all fun x => x.2.1.numOrNaN && x.2.2.numOrNaN

/-- The six demographic group/category cells of a row, as one tuple. -/
def demoCells (r : MRow) : CellV × CellV × CellV × CellV × CellV × CellV :=
  (r.age_group, r.joviality_group, r.household_size_group, r.haveKids_group,
   r.educationLevel, r.interestGroup)

/-- The demographic payload broadcast from participant row `p`. -/
def demoBroadcast (cy : Int) (p : ParticipantRow) :
    CellV × CellV × CellV × CellV × CellV × CellV :=
  (CellV.str (age_group cy p.age), CellV.str (joviality_group p.joviality),
   CellV.str (household_size_group p.householdSize),
   CellV.str (haveKids_group p.haveKids),
   CellV.str (p.educationLevel.getD "Unknown"),
   CellV.str (p.interestGroup.getD "Unknown"))

/-- Six "Unknown" strings — the demographic cells of a row no participant
row ever reached. -/
def demoUnknown : CellV × CellV × CellV × CellV × CellV × CellV :=
  (CellV.str "Unknown", CellV.str "Unknown", CellV.str "Unknown",
   CellV.str "Unknown", CellV.str "Unknown", CellV.str "Unknown")

/-- Six missing markers. -/
def demoNaN : CellV × CellV × CellV × CellV × CellV × CellV :=
  (CellV.missing, CellV.missing, CellV.missing, CellV.missing,
   CellV.missing, CellV.missing)

/-!
Employment sub-pipeline, `preprocess_turnover.py`.  The script reads
timestamp, participantId, currentEmployer from the same log files
(currentEmployer is a float column with NaN for unemployed readings),
drops rows with NaT timestamps (line 56), keeps per (participantId, date)
the `last` (= last non-null, after a stable sort by timestamp) employer
reading (lines 78-83), keeps only employed records (line 86), and counts
distinct participants per (employerId, month) (lines 103-108).
-/

/-- Truncation of a calendar day to its month index. -/
def monthOfDay (d : Nat) : Nat := d / 30

structure RawWorkRow where
  timestamp : Option Nat
  participantId : Nat
  currentEmployer : Option Nat
deriving DecidableEq, Repr

structure WorkRow where
  timestamp : Nat
  participantId : Nat
  currentEmployer : Option Nat
deriving DecidableEq, Repr

def dropnaWork (rows : List RawWorkRow) : List WorkRow :=
  rows.filterMap fun r => r.timestamp.map fun t =>
    { timestamp := t, participantId := r.participantId,
      currentEmployer := r.currentEmployer }

/-- The groupby key of line 80: (participantId, date). -/
def workKey (r : WorkRow) : Nat × Nat := (r.participantId, dayOf r.timestamp)

/-- The kept rows of one (participant, day) group, in log order. -/
def dayRows (logs : List RawWorkRow) (k : Nat × Nat) : List WorkRow :=
  (dropnaWork logs).filter fun r => decide (workKey r = k)

/-- The (timestamp, employerId) pairs of the rows with a non-null employer,
in original order — the readings that the pandas `last` aggregation can
return. -/
def employerReadings (rows : List WorkRow) : List (Nat × Nat) :=
  rows.filterMap fun r => r.currentEmployer.map fun e => (r.timestamp, e)

structure DailyRow where
  participantId : Nat
  date : Nat
  currentEmployer : Option Nat
deriving DecidableEq, Repr

def dailyKey (d : DailyRow) : Nat × Nat := (d.participantId, d.date)

def dailyRowOf (logs : List RawWorkRow) (k : Nat × Nat) : DailyRow :=
  { participantId := k.1, date := k.2,
    currentEmployer :=
      (stableMaxByKey Prod.fst (employerReadings (dayRows logs k))).map Prod.snd }

/-- Lines 78-83: one row per observed (participantId, date), carrying the
chronologically last non-null employer reading of that day (NaN if the
whole day has none). -/
def df_daily (logs : List RawWorkRow) : List DailyRow :=
  (((dropnaWork logs).map workKey).dedup).map (dailyRowOf logs)

/-- Lines 86-92: the employed records written to work.csv, as
(participantId, date, employerId) triples — days without an employer are
filtered out by `notna`, not zero-filled. -/
def work_records (logs : List RawWorkRow) : List (Nat × Nat × Nat) :=
  (df_daily logs).filterMap fun d =>
    d.currentEmployer.map fun e => (d.participantId, d.date, e)

/-- The groupby key of line 104: (employerId, month). -/
def companyKey (r : Nat × Nat × Nat) : Nat × Nat := (r.2.2, monthOfDay r.2.1)

def companyRowOf (emp : List (Nat × Nat × Nat)) (k : Nat × Nat) :
    Nat × Nat × Nat :=
  (k.1, k.2,
   (((emp.filter fun r => decide (companyKey r = k)).map fun r => r.1).dedup).length)

/-- Lines 100-108: distinct participant count per observed
(employerId, month) — `nunique` is the number of distinct participantIds in
the group, and only observed groups appear. -/
def workers_by_company (logs : List RawWorkRow) : List (Nat × Nat × Nat) :=
  let emp := work_records logs
  ((emp.map companyKey).dedup).map (companyRowOf emp)

/-!
Derived vocabulary for the claims about the balance merge: the rows and the
valued readings of one EntityPeriodKey across the whole log (all files). -/

def fileRows (files : List (List RawLogRow)) : List LogRow :=
  (files.map dropnaTimestamp).flatten

def globalKeyRows (files : List (List RawLogRow)) (k : Nat × Nat) : List LogRow :=
  (fileRows files).filter fun r => decide (logKey r = k)

/-- All valued readings of key `k` anywhere in the log, in file order. -/
def globalReadings (files : List (List RawLogRow)) (k : Nat × Nat) :
    List (Nat × Rat) :=
  valuedReadings (globalKeyRows files k)

/-!
Concrete inputs used by witnesses and counterexamples.
-/

/-- Two one-participant chunk files with different numbers of valid rows but
identical chunk summaries. -/
def fileA : List RawLogRow :=
  [⟨some 0, 1, some 1⟩, ⟨some 2, 1, some 2⟩, ⟨some 4, 1, some 3⟩]

def fileB : List RawLogRow :=
  [⟨some 0, 1, some 1⟩, ⟨some 4, 1, some 3⟩]

/-- A chunk whose only key is (2, 0), with readings 10 at hour 1 and 20 at
hour 5. -/
def fileC : List RawLogRow :=
  [⟨some 1, 2, some 10⟩, ⟨some 5, 2, some 20⟩]

/-- A chunk that holds no row for participant 2. -/
def fileD : List RawLogRow :=
  [⟨some 3, 3, some 7⟩]

/-- A journal with two Food expenses and one Wage income for participant 5,
all in month 0.  "Wage" is a category of the dtype but never an expense, so
the (5, 0, "Wage") pivot cell is structurally absent. -/
def journalE : List RawJournalRow :=
  [⟨some 0, 5, "Food", -20⟩, ⟨some 1, 5, "Food", -30⟩, ⟨some 2, 5, "Wage", 100⟩]

/-- Status logs for participant 9: on day 0 an unemployed reading at hour 0,
employer 7 at hour 1, unemployed again at hour 2; on day 40 (month 1) only
an unemployed reading. -/
def logsW : List RawWorkRow :=
  [⟨some 0, 9, none⟩, ⟨some 1, 9, some 7⟩, ⟨some 2, 9, none⟩,
   ⟨some 960, 9, none⟩]

/-- One log file: participant 1 has one balance reading, in month 0. -/
def filesG : List (List RawLogRow) := [[⟨some 0, 1, some 100⟩]]

/-- A journal with a single Food expense of participant 1 in month 1 — a
month with no balance reading, so the expense outer join grows the grid. -/
def journalG : List RawJournalRow := [⟨some 720, 1, "Food", -50⟩]

/-- An attribute table holding participant 1, age 30, joviality 0. -/
def partsG : List ParticipantRow :=
  [⟨1, some 2, some true, some 30, some "College", some "A", some 0⟩]

/-- One log file: participant 2 has one balance reading, in month 0. -/
def filesH : List (List RawLogRow) := [[⟨some 0, 2, some 100⟩]]

/-- A non-empty attribute table that has no row for participant 2. -/
def partsH : List ParticipantRow :=
  [⟨1, some 2, some true, some 30, some "College", some "A", some 0⟩]

/-- One log file: participant 2 has one row in month 0 whose balance cell is
NaN. -/
def filesI : List (List RawLogRow) := [[⟨some 0, 2, none⟩]]

/-- A default merged row, used only to give `List.headD` its fallback. -/
def dRow : MRow := { participantId := 0, month := 0 }

/-- The output table of the pipeline run on `filesG`, `journalG`, `partsG`
in run year 2022. -/
def rowsG : List MRow :=
  (run_pipeline 2022 filesG journalG partsG).toOption.getD []

/-- The output table of the pipeline run on `filesI` with an empty journal
and the `partsH` attribute table, in run year 2022. -/
def rowsI : List MRow :=
  (run_pipeline 2022 filesI [] partsH).toOption.getD []

/-!
Helper lemmas about grouped tables.
-/

theorem filter_map_build_eq_nil {κ β : Type} [DecidableEq κ] (keys : List κ)
    (build : κ → β) (keyOf : β → κ) (hk : ∀ k, keyOf (build k) = k)
    (k : κ) (hmem : k ∉ keys) :
    (keys.map build).filter (fun b => decide (keyOf b = k)) = [] := by
  rw [List.filter_eq_nil_iff]
  intro x hx
  rcases List.mem_map.mp hx with ⟨k1, hk1, rfl⟩
  simp only [hk, decide_eq_true_eq]
  exact fun h => hmem (h ▸ hk1)

theorem filter_map_build_singleton {κ β : Type} [DecidableEq κ] (keys : List κ)
    (hnd : keys.Nodup) (build : κ → β) (keyOf : β → κ)
    (hk : ∀ k, keyOf (build k) = k) (k : κ) (hmem : k ∈ keys) :
    (keys.map build).filter (fun b => decide (keyOf b = k)) = [build k] := by
  induction keys with
  | nil => simp at hmem
  | cons k0 ks ih =>
    rw [List.map_cons, List.filter_cons]
    rcases List.mem_cons.mp hmem with rfl | hks
    · rw [if_pos (by simp [hk])]
      rw [filter_map_build_eq_nil ks build keyOf hk k (List.nodup_cons.mp hnd).1]
    · have hne : k0 ≠ k := fun h => (List.nodup_cons.mp hnd).1 (h ▸ hks)
      rw [if_neg (by simp [hk, hne])]
      exact ih (List.nodup_cons.mp hnd).2 hks

theorem filter_flatten_comm {α : Type} (p : α → Bool) (L : List (List α)) :
    (L.flatten).filter p = (L.map (List.filter p)).flatten := by
  induction L with
  | nil => rfl
  | cons a L ih => simp [List.filter_append, ih]

theorem flatten_eq_of_single {α : Type} (L : List (List α)) (i : Nat)
    (hi : i < L.length)
    (h : ∀ j, (hj : j < L.length) → j ≠ i → L.get ⟨j, hj⟩ = []) :
    L.flatten = L.get ⟨i, hi⟩ := by
  induction L generalizing i with
  | nil => simp at hi
  | cons a L ih =>
    cases i with
    | zero =>
      have hL : L.flatten = [] := by
        rw [List.flatten_eq_nil_iff]
        intro l hl
        rcases List.mem_iff_get.mp hl with ⟨⟨j, hj⟩, rfl⟩
        exact h (j + 1) (Nat.succ_lt_succ hj) (Nat.succ_ne_zero j)
      simp [hL]
    | succ i =>
      have ha : a = [] := h 0 (Nat.succ_pos _) (by simp)
      have hi2 : i < L.length := Nat.lt_of_succ_lt_succ hi
      have hrec := ih i hi2
        (fun j hj hne => h (j + 1) (Nat.succ_lt_succ hj) (by simpa using hne))
      simpa [ha] using hrec

theorem keyRows_eq_nil_iff (file : List RawLogRow) (k : Nat × Nat) :
    keyRows file k = [] ↔ k ∉ (dropnaTimestamp file).map logKey := by
  rw [keyRows, List.filter_eq_nil_iff]
  constructor
  · intro h hk
    rcases List.mem_map.mp hk with ⟨r, hr, rfl⟩
    exact (by simpa using h r hr : ¬ logKey r = logKey r) rfl
  · intro h r hr
    simp only [decide_eq_true_eq]
    intro hEq
    exact h (hEq ▸ List.mem_map_of_mem logKey hr)

theorem partialKey_chunkAggOf (file : List RawLogRow) :
    ∀ k, partialKey (chunkAggOf file k) = k := by
  intro k
  simp [partialKey, chunkAggOf]

theorem chunk_summary_map_key (file : List RawLogRow) :
    (chunk_summary file).map partialKey =
      ((dropnaTimestamp file).map logKey).dedup := by
  rw [chunk_summary, List.map_map]
  conv_rhs => rw [← List.map_id (((dropnaTimestamp file).map logKey).dedup)]
  exact List.map_congr_left fun k _ => partialKey_chunkAggOf file k

theorem chunk_summary_filter_singleton (file : List RawLogRow) (k : Nat × Nat)
    (hk : k ∈ (dropnaTimestamp file).map logKey) :
    (chunk_summary file).filter (fun p => decide (partialKey p = k)) =
      [chunkAggOf file k] := by
  rw [chunk_summary]
  exact filter_map_build_singleton _ (List.nodup_dedup _) _ _
    (partialKey_chunkAggOf file) _ (List.mem_dedup.mpr hk)

theorem chunk_summary_filter_nil (file : List RawLogRow) (k : Nat × Nat)
    (hk : k ∉ (dropnaTimestamp file).map logKey) :
    (chunk_summary file).filter (fun p => decide (partialKey p = k)) = [] := by
  rw [chunk_summary]
  exact filter_map_build_eq_nil _ _ _ (partialKey_chunkAggOf file) _
    (fun h => hk (List.mem_dedup.mp h))

theorem chunkAggOf_eq (file : List RawLogRow) (k : Nat × Nat)
    (tvmin tvmax : Nat × Rat)
    (hmin : tvmin ∈ valuedReadings (keyRows file k))
    (hminle : ∀ tv ∈ valuedReadings (keyRows file k), tvmin.1 ≤ tv.1)
    (hmax : tvmax ∈ valuedReadings (keyRows file k))
    (hmaxge : ∀ tv ∈ valuedReadings (keyRows file k), tv.1 ≤ tvmax.1)
    (hnd : ((valuedReadings (keyRows file k)).map Prod.fst).Nodup) :
    chunkAggOf file k =
      { participantId := k.1, month := k.2,
        chunk_start_balance := some tvmin.2,
        chunk_end_balance := some tvmax.2,
        chunk_mean_balance := some
          (((valuedReadings (keyRows file k)).map Prod.snd).sum /
            ((valuedReadings (keyRows file k)).length : Rat)) } := by
  have h1 := stableMinByKey_spec Prod.fst _ tvmin hmin hminle hnd
  have h2 := stableMaxByKey_spec Prod.fst _ tvmax hmax hmaxge hnd
  have hne : (valuedReadings (keyRows file k)).isEmpty = false := by
    cases hv : valuedReadings (keyRows file k) with
    | nil => rw [hv] at hmin; simp at hmin
    | cons x l => simp
  rw [chunkAggOf]
  simp [h1, h2, hne]

theorem mem_key_of_mem_valued (file : List RawLogRow) (k : Nat × Nat)
    (tv : Nat × Rat) (htv : tv ∈ valuedReadings (keyRows file k)) :
    k ∈ (dropnaTimestamp file).map logKey := by
  rcases List.mem_filterMap.mp htv with ⟨r, hr, hre⟩
  have hr2 := List.mem_filter.mp hr
  have hkey : logKey r = k := by simpa using hr2.2
  exact hkey ▸ List.mem_map_of_mem logKey hr2.1

theorem firstSome_singleton (x : Rat) : firstSome [some x] = some x := rfl

theorem lastSome_singleton (x : Rat) : lastSome [some x] = some x := rfl

theorem meanSome_singleton (x : Rat) : meanSome [some x] = some x := by
  simp [meanSome]

theorem balanceKey_balanceRowOf (ps : List PartialAgg) :
    ∀ k, balanceKey (balanceRowOf ps k) = k := by
  intro k
  simp [balanceKey, balanceRowOf]

theorem balanceRowOf_singleton (ps : List PartialAgg) (k : Nat × Nat)
    (p : PartialAgg)
    (h : ps.filter (fun q => decide (partialKey q = k)) = [p]) :
    balanceRowOf ps k =
      { participantId := k.1, month := k.2,
        start_balance := firstSome [p.chunk_start_balance],
        end_balance := lastSome [p.chunk_end_balance],
        mean_balance_approx := meanSome [p.chunk_mean_balance] } := by
  simp only [balanceRowOf, h, List.map_cons, List.map_nil]

/-!
Partition lemmas: summing a quantity per category over all categories of a
covering, duplicate-free category list recovers the sum over all rows.
-/

theorem sum_map_ite_zero {κ M : Type} [DecidableEq κ] [AddCommMonoid M]
    (keys : List κ) (x : κ) (c : M) (hx : x ∉ keys) :
    (keys.map fun k => if x = k then c else 0).sum = 0 := by
  induction keys with
  | nil => rfl
  | cons k0 ks ih =>
    rw [List.map_cons, List.sum_cons,
      if_neg (fun h : x = k0 => hx (List.mem_cons.mpr (Or.inl h))),
      ih (fun h => hx (List.mem_cons_of_mem _ h)), add_zero]

theorem sum_map_ite_single {κ M : Type} [DecidableEq κ] [AddCommMonoid M]
    (keys : List κ) (hnd : keys.Nodup) (x : κ) (hx : x ∈ keys) (c : M) :
    (keys.map fun k => if x = k then c else 0).sum = c := by
  induction keys with
  | nil => simp at hx
  | cons k0 ks ih =>
    rw [List.map_cons, List.sum_cons]
    rcases List.mem_cons.mp hx with rfl | hks
    · rw [if_pos rfl, sum_map_ite_zero ks x c (List.nodup_cons.mp hnd).1, add_zero]
    · have hne : ¬ x = k0 := fun h => (List.nodup_cons.mp hnd).1 (h ▸ hks)
      rw [if_neg hne, ih (List.nodup_cons.mp hnd).2 hks, zero_add]

theorem sum_map_add_distrib {κ M : Type} [AddCommMonoid M] (keys : List κ)
    (g h : κ → M) :
    (keys.map fun k => g k + h k).sum = (keys.map g).sum + (keys.map h).sum := by
  induction keys with
  | nil => simp
  | cons k0 ks ih =>
    rw [List.map_cons, List.map_cons, List.map_cons, List.sum_cons,
      List.sum_cons, List.sum_cons, ih, add_add_add_comm]

theorem sum_filter_partition {α κ M : Type} [DecidableEq κ] [AddCommMonoid M]
    (f : α → M) (keyOf : α → κ) (l : List α) (keys : List κ)
    (hnd : keys.Nodup) (hcov : ∀ a ∈ l, keyOf a ∈ keys) :
    (keys.map fun k => ((l.filter fun a => decide (keyOf a = k)).map f).sum).sum
      = (l.map f).sum := by
  induction l with
  | nil =>
    simp only [List.filter_nil, List.map_nil, List.sum_nil]
    exact List.sum_eq_zero fun x hx => by
      rcases List.mem_map.mp hx with ⟨k, _, rfl⟩
      rfl
  | cons a l ih =>
    have hstep : ∀ k,
        (((a :: l).filter fun b => decide (keyOf b = k)).map f).sum
          = (if keyOf a = k then f a else 0)
            + ((l.filter fun b => decide (keyOf b = k)).map f).sum := by
      intro k
      rw [List.filter_cons]
      by_cases h : keyOf a = k
      · simp [h]
      · simp [h]
    rw [List.map_congr_left fun k _ => hstep k, sum_map_add_distrib,
      sum_map_ite_single keys hnd _ (hcov a (List.mem_cons_self _ _)) (f a),
      ih fun b hb => hcov b (List.mem_cons_of_mem _ hb),
      List.map_cons, List.sum_cons]

theorem length_map_one {α : Type} (l : List α) :
    (l.map fun _ => (1 : Nat)).sum = l.length := by
  induction l with
  | nil => rfl
  | cons a l ih => simp [ih, Nat.add_comm]

theorem length_filter_partition {α κ : Type} [DecidableEq κ]
    (keyOf : α → κ) (l : List α) (keys : List κ)
    (hnd : keys.Nodup) (hcov : ∀ a ∈ l, keyOf a ∈ keys) :
    (keys.map fun k => (l.filter fun a => decide (keyOf a = k)).length).sum
      = l.length := by
  have h := sum_filter_partition (fun _ => (1 : Nat)) keyOf l keys hnd hcov
  simpa [length_map_one] using h

theorem cat_mem_expCats (raw : List RawJournalRow) (r : JournalRow)
    (hr : r ∈ journalRows raw) : r.category ∈ expCats raw := by
  rcases List.mem_filterMap.mp hr with ⟨a, ha, hae⟩
  cases hta : a.timestamp with
  | none => rw [hta] at hae; simp at hae
  | some t =>
    rw [hta] at hae
    simp only [Option.map_some', Option.some.injEq] at hae
    rw [expCats]
    refine List.mem_dedup.mpr ?_
    have hc : r.category = a.category := by rw [← hae]
    rw [hc]
    exact List.mem_map_of_mem _ ha

theorem dailyKey_dailyRowOf (logs : List RawWorkRow) :
    ∀ k, dailyKey (dailyRowOf logs k) = k := by
  intro k
  simp [dailyKey, dailyRowOf]

theorem mem_workKey_of_mem_employed (logs : List RawWorkRow) (k : Nat × Nat)
    (te : Nat × Nat) (h : te ∈ employerReadings (dayRows logs k)) :
    k ∈ (dropnaWork logs).map workKey := by
  rcases List.mem_filterMap.mp h with ⟨r, hr, hre⟩
  have hr2 := List.mem_filter.mp hr
  have hkey : workKey r = k := by simpa using hr2.2
  exact hkey ▸ List.mem_map_of_mem workKey hr2.1

theorem keyCatExpenses_eq (raw : List RawJournalRow) (k : Nat × Nat)
    (c : String) :
    keyCatExpenses raw k c =
      (keyExpenses raw k).filter fun r => decide (r.category = c) := by
  rw [keyCatExpenses, keyExpenses, List.filter_filter]
  congr 1
  funext r
  by_cases h1 : jKey r = k
  · by_cases h2 : r.category = c
    · simp [h1, h2]
    · simp [h1, h2]
  · simp [h1]


/-!
Lemmas about the merge pipeline, used for the grid-merge claims.
-/

theorem find?_map_keyPres {α β κ : Type} [DecidableEq κ] (f : α → β)
    (keyA : α → κ) (keyB : β → κ) (hf : ∀ x, keyB (f x) = keyA x)
    (l : List α) (k : κ) :
    (l.map f).find? (fun x => decide (keyB x = k)) =
      (l.find? (fun x => decide (keyA x = k))).map f := by
  induction l with
  | nil => rfl
  | cons a l ih =>
    rw [List.map_cons]
    by_cases h : keyA a = k
    · rw [List.find?_cons_of_pos _ (by simp [hf, h]),
        List.find?_cons_of_pos _ (by simp [h])]
      rfl
    · rw [List.find?_cons_of_neg _ (by simp [hf, h]),
        List.find?_cons_of_neg _ (by simp [h])]
      exact ih

theorem find?_append_left {β : Type} (l1 l2 : List β) (pr : β → Bool) (y : β)
    (h : l1.find? pr = some y) : (l1 ++ l2).find? pr = some y := by
  rw [List.find?_append, h]
  rfl

theorem headD_mem_of_ne_nil {β : Type} (l : List β) (d : β) (h : l ≠ []) :
    l.headD d ∈ l := by
  cases l with
  | nil => exact absurd rfl h
  | cons a l => exact List.mem_cons_self _ _

theorem monthly_balances_ne_nil (files : List (List RawLogRow))
    (h : ¬ (allPartials files).isEmpty) : monthly_balances files ≠ [] := by
  rw [monthly_balances]
  intro hnil
  rw [List.map_eq_nil_iff, List.dedup_eq_nil, List.map_eq_nil_iff] at hnil
  rw [hnil] at h
  exact h rfl

theorem monthToTimestamp_df (files : List (List RawLogRow))
    (h : ¬ (allPartials files).isEmpty) :
    monthToTimestamp (monthly_balances_df files) =
      Except.ok (monthly_balances files) := by
  rw [monthly_balances_df, if_neg h, monthToTimestamp]
  rfl

theorem monthToTimestamp_df_empty (files : List (List RawLogRow))
    (h : (allPartials files).isEmpty) :
    monthToTimestamp (monthly_balances_df files) =
      Except.error dtAccessorError := by
  rw [monthly_balances_df, if_pos h, monthToTimestamp]
  rfl

theorem except_ok_bind {ε α β : Type} (a : α) (f : α → Except ε β) :
    (Except.ok a : Except ε α) >>= f = f a := rfl

theorem run_pipeline_eq (cy : Int) (files : List (List RawLogRow))
    (journal : List RawJournalRow) (parts : List ParticipantRow)
    (h : ¬ (allPartials files).isEmpty) :
    run_pipeline cy files journal parts =
      Except.ok (((mergeExpenses (expCats journal) (df_expenses_pivot journal)
        (mergeIncome (df_income journal)
          (mergeDemo cy parts (mbToGrid (monthly_balances files))))).map
            postProcess).map (addMissingDemo parts)) := by
  have hne := monthly_balances_ne_nil files h
  have hb : baseGrid (monthly_balances files) (df_expenses_pivot journal)
      (df_income journal) = Except.ok (mbToGrid (monthly_balances files)) := by
    rw [baseGrid, if_pos]
    intro hti
    exact hne (List.isEmpty_iff.mp hti)
  simp only [run_pipeline, monthToTimestamp_df files h, except_ok_bind, hb]

theorem run_pipeline_ok (cy : Int) (files : List (List RawLogRow))
    (journal : List RawJournalRow) (parts : List ParticipantRow)
    (rows : List MRow)
    (hok : run_pipeline cy files journal parts = Except.ok rows) :
    monthly_balances files ≠ [] ∧
    rows = ((mergeExpenses (expCats journal) (df_expenses_pivot journal)
      (mergeIncome (df_income journal)
        (mergeDemo cy parts (mbToGrid (monthly_balances files))))).map
          postProcess).map (addMissingDemo parts) := by
  by_cases hemp : (allPartials files).isEmpty
  · have hthis : run_pipeline cy files journal parts =
        Except.error dtAccessorError := by
      simp only [run_pipeline, monthToTimestamp_df_empty files hemp]
      rfl
    rw [hthis] at hok
    exact Except.noConfusion hok
  · have heq := run_pipeline_eq cy files journal parts hemp
    rw [heq] at hok
    injection hok with h2
    exact ⟨monthly_balances_ne_nil files hemp, h2.symm⟩

theorem mKey_demoApply (cy : Int) (parts : List ParticipantRow) (r : MRow) :
    mKey (demoApply cy parts r) = mKey r := by
  unfold demoApply
  split <;> rfl

theorem mKey_incomeApply (inc : List IncomeRow) (r : MRow) :
    mKey (incomeApply inc r) = mKey r := by
  unfold incomeApply
  split <;> rfl

theorem mKey_expenseApply (cats : List String) (pv : List PivotRow) (r : MRow) :
    mKey (expenseApply cats pv r) = mKey r := by
  unfold expenseApply
  split <;> rfl

theorem mKey_incomeZero (r : MRow) : mKey (incomeZero r) = mKey r := rfl

theorem mKey_expenseZero (r : MRow) : mKey (expenseZero r) = mKey r := rfl

theorem mKey_postProcess (r : MRow) : mKey (postProcess r) = mKey r := rfl

theorem mKey_addMissingDemo (parts : List ParticipantRow) (r : MRow) :
    mKey (addMissingDemo parts r) = mKey r := by
  unfold addMissingDemo
  split <;> rfl

theorem demoCells_incomeApply (inc : List IncomeRow) (r : MRow) :
    demoCells (incomeApply inc r) = demoCells r := by
  unfold incomeApply
  split <;> rfl

theorem demoCells_expenseApply (cats : List String) (pv : List PivotRow)
    (r : MRow) : demoCells (expenseApply cats pv r) = demoCells r := by
  unfold expenseApply
  split <;> rfl

theorem demoCells_incomeZero (r : MRow) :
    demoCells (incomeZero r) = demoCells r := rfl

theorem demoCells_expenseZero (r : MRow) :
    demoCells (expenseZero r) = demoCells r := rfl

theorem demoCells_demoUpdate (cy : Int) (p : ParticipantRow) (r : MRow) :
    demoCells (demoUpdate cy p r) = demoBroadcast cy p := rfl

theorem demoCells_postProcess (r : MRow) :
    demoCells (postProcess r) =
      (fillUnknown r.age_group, fillUnknown r.joviality_group,
       fillUnknown r.household_size_group, fillUnknown r.haveKids_group,
       fillUnknown r.educationLevel, fillUnknown r.interestGroup) := rfl

theorem addMissingDemo_of_ne (parts : List ParticipantRow) (r : MRow)
    (h : ¬ parts.isEmpty) : addMissingDemo parts r = r := by
  unfold addMissingDemo
  rw [if_neg h]

theorem keys_mbToGrid (mb : List BalanceRow) :
    (mbToGrid mb).map mKey = mb.map balanceKey := by
  rw [mbToGrid, List.map_map]
  rfl

theorem keys_mergeDemo_sub (cy : Int) (parts : List ParticipantRow)
    (grid : List MRow) :
    ∀ x ∈ mergeDemo cy parts grid, mKey x ∈ grid.map mKey := by
  unfold mergeDemo
  split
  · intro x hx
    exact List.mem_map_of_mem mKey hx
  · intro x hx
    rcases List.mem_map.mp hx with ⟨r0, h0, rfl⟩
    rw [mKey_demoApply]
    exact List.mem_map_of_mem mKey h0

theorem demoNaN_mergeIncome {K : List (Nat × Nat)} (inc : List IncomeRow)
    (grid : List MRow)
    (H : ∀ y ∈ grid, mKey y ∉ K → demoCells y = demoNaN) :
    ∀ x ∈ mergeIncome inc grid, mKey x ∉ K → demoCells x = demoNaN := by
  unfold mergeIncome
  split
  · intro x hx hnk
    rcases List.mem_map.mp hx with ⟨r0, h0, rfl⟩
    rw [demoCells_incomeZero]
    exact H r0 h0 hnk
  · intro x hx hnk
    rcases List.mem_append.mp hx with hL | hR
    · rcases List.mem_map.mp hL with ⟨r0, h0, rfl⟩
      rw [demoCells_incomeApply]
      exact H r0 h0 (by rwa [mKey_incomeApply] at hnk)
    · rcases List.mem_map.mp hR with ⟨i, hi, rfl⟩
      rfl

theorem demoNaN_mergeExpenses {K : List (Nat × Nat)} (cats : List String)
    (pv : List PivotRow) (grid : List MRow)
    (H : ∀ y ∈ grid, mKey y ∉ K → demoCells y = demoNaN) :
    ∀ x ∈ mergeExpenses cats pv grid, mKey x ∉ K → demoCells x = demoNaN := by
  unfold mergeExpenses
  split
  · intro x hx hnk
    rcases List.mem_map.mp hx with ⟨r0, h0, rfl⟩
    rw [demoCells_expenseZero]
    exact H r0 h0 hnk
  · intro x hx hnk
    rcases List.mem_append.mp hx with hL | hR
    · rcases List.mem_map.mp hL with ⟨r0, h0, rfl⟩
      rw [demoCells_expenseApply]
      exact H r0 h0 (by rwa [mKey_expenseApply] at hnk)
    · rcases List.mem_map.mp hR with ⟨x0, hx0, rfl⟩
      rfl

theorem demoCells_post_unknown (r : MRow) (h : demoCells r = demoNaN) :
    demoCells (postProcess r) = demoUnknown := by
  have h1 : r.age_group = CellV.missing := congrArg (fun t => t.1) h
  have h2 : r.joviality_group = CellV.missing := congrArg (fun t => t.2.1) h
  have h3 : r.household_size_group = CellV.missing :=
    congrArg (fun t => t.2.2.1) h
  have h4 : r.haveKids_group = CellV.missing := congrArg (fun t => t.2.2.2.1) h
  have h5 : r.educationLevel = CellV.missing :=
    congrArg (fun t => t.2.2.2.2.1) h
  have h6 : r.interestGroup = CellV.missing :=
    congrArg (fun t => t.2.2.2.2.2) h
  rw [demoCells_postProcess, h1, h2, h3, h4, h5, h6]
  rfl

theorem demoCells_post_broadcast (cy : Int) (p : ParticipantRow) (r : MRow)
    (h : demoCells r = demoBroadcast cy p) :
    demoCells (postProcess r) = demoBroadcast cy p := by
  have h1 : r.age_group = CellV.str (age_group cy p.age) :=
    congrArg (fun t => t.1) h
  have h2 : r.joviality_group = CellV.str (joviality_group p.joviality) :=
    congrArg (fun t => t.2.1) h
  have h3 : r.household_size_group =
      CellV.str (household_size_group p.householdSize) :=
    congrArg (fun t => t.2.2.1) h
  have h4 : r.haveKids_group = CellV.str (haveKids_group p.haveKids) :=
    congrArg (fun t => t.2.2.2.1) h
  have h5 : r.educationLevel = CellV.str (p.educationLevel.getD "Unknown") :=
    congrArg (fun t => t.2.2.2.2.1) h
  have h6 : r.interestGroup = CellV.str (p.interestGroup.getD "Unknown") :=
    congrArg (fun t => t.2.2.2.2.2) h
  rw [demoCells_postProcess, h1, h2, h3, h4, h5, h6]
  rfl

theorem demoCells_addMissing_unknown (parts : List ParticipantRow) (y : MRow)
    (h : demoCells y = demoUnknown) :
    demoCells (addMissingDemo parts y) = demoUnknown := by
  unfold addMissingDemo
  split
  · rfl
  · exact h

theorem numOrNaN_ofOptRat (o : Option Rat) : (ofOptRat o).numOrNaN = true := by
  cases o <;> rfl

theorem numOrNaN_missing : CellV.missing.numOrNaN = true := rfl

theorem isNum_fill0 (c : CellV) (h : c.numOrNaN = true) :
    (fill0 c).isNum = true := by
  cases c <;> simp_all [CellV.numOrNaN, fill0, CellV.isNum]

theorem filled_fillUnknown (c : CellV) : (fillUnknown c).filled = true := by
  cases c <;> rfl

theorem isNum_cellSub (a b : CellV) (ha : a.isNum = true) (hb : b.isNum = true) :
    (cellSub a b).isNum = true := by
  cases a <;> cases b <;> simp_all [CellV.isNum, cellSub]

theorem all_numOrNaN_mapped (cl : List (String × Rat × Nat)) :
    ((cl.map fun c => (c.1, CellV.num c.2.1, CellV.num (c.2.2 : Rat))).all
      fun x => x.2.1.numOrNaN && x.2.2.numOrNaN) = true := by
  rw [List.all_eq_true]
  intro x hx
  rcases List.mem_map.mp hx with ⟨c, hc, rfl⟩
  rfl

theorem all_numOrNaN_missing (cats : List String) :
    ((cats.map fun c => (c, CellV.missing, CellV.missing)).all
      fun x => x.2.1.numOrNaN && x.2.2.numOrNaN) = true := by
  rw [List.all_eq_true]
  intro x hx
  rcases List.mem_map.mp hx with ⟨c, hc, rfl⟩
  rfl

theorem all_isNum_fillCells (cl : List (String × CellV × CellV))
    (h : (cl.all fun x => x.2.1.numOrNaN && x.2.2.numOrNaN) = true) :
    ((cl.map fun x => (x.1, fill0 x.2.1, fill0 x.2.2)).all
      fun x => x.2.1.isNum && x.2.2.isNum) = true := by
  rw [List.all_eq_true] at h ⊢
  intro x hx
  rcases List.mem_map.mp hx with ⟨c, hc, rfl⟩
  have hcn := h c hc
  rw [Bool.and_eq_true] at hcn ⊢
  exact ⟨isNum_fill0 _ hcn.1, isNum_fill0 _ hcn.2⟩

theorem finOk_mbToGrid (mb : List BalanceRow) :
    ∀ x ∈ mbToGrid mb, finOk x = true := by
  intro x hx
  rcases List.mem_map.mp hx with ⟨b, hb, rfl⟩
  simp [finOk, numOrNaN_ofOptRat, numOrNaN_missing]

theorem finOk_demoApply (cy : Int) (parts : List ParticipantRow) (r : MRow) :
    finOk (demoApply cy parts r) = finOk r := by
  unfold demoApply
  split <;> rfl

theorem finOk_mergeDemo (cy : Int) (parts : List ParticipantRow)
    (grid : List MRow) (H : ∀ y ∈ grid, finOk y = true) :
    ∀ x ∈ mergeDemo cy parts grid, finOk x = true := by
  unfold mergeDemo
  split
  · exact H
  · intro x hx
    rcases List.mem_map.mp hx with ⟨r0, h0, rfl⟩
    rw [finOk_demoApply]
    exact H r0 h0

theorem finOk_incomeUpdate (i : IncomeRow) (r : MRow) (h : finOk r = true) :
    finOk (incomeUpdate i r) = true := by
  simp only [finOk, incomeUpdate, Bool.and_eq_true, CellV.numOrNaN] at h ⊢
  tauto

theorem finOk_incomeZero (r : MRow) (h : finOk r = true) :
    finOk (incomeZero r) = true := by
  simp only [finOk, incomeZero, Bool.and_eq_true, CellV.numOrNaN] at h ⊢
  tauto

theorem finOk_expenseZero (r : MRow) (h : finOk r = true) :
    finOk (expenseZero r) = true := by
  simp only [finOk, expenseZero, Bool.and_eq_true, CellV.numOrNaN] at h ⊢
  tauto

theorem finOk_newIncomeRow (i : IncomeRow) : finOk (newIncomeRow i) = true :=
  rfl

theorem finOk_newPivotRow (x : PivotRow) : finOk (newPivotRow x) = true := by
  simp only [finOk, newPivotRow, Bool.and_eq_true, CellV.numOrNaN]
  refine ⟨by tauto, ?_⟩
  exact all_numOrNaN_mapped x.cells

theorem finOk_expenseUpdate (x : PivotRow) (r : MRow) (h : finOk r = true) :
    finOk (expenseUpdate x r) = true := by
  simp only [finOk, expenseUpdate, Bool.and_eq_true, CellV.numOrNaN] at h ⊢
  refine ⟨by tauto, ?_⟩
  exact all_numOrNaN_mapped x.cells

theorem finOk_expenseApply (cats : List String) (pv : List PivotRow) (r : MRow)
    (h : finOk r = true) : finOk (expenseApply cats pv r) = true := by
  unfold expenseApply
  split
  · simp only [finOk, Bool.and_eq_true] at h ⊢
    refine ⟨by tauto, ?_⟩
    exact all_numOrNaN_missing cats
  · exact finOk_expenseUpdate _ r h

theorem finOk_incomeApply (inc : List IncomeRow) (r : MRow)
    (h : finOk r = true) : finOk (incomeApply inc r) = true := by
  unfold incomeApply
  split
  · exact h
  · exact finOk_incomeUpdate _ r h

theorem finOk_mergeIncome (inc : List IncomeRow) (grid : List MRow)
    (H : ∀ y ∈ grid, finOk y = true) :
    ∀ x ∈ mergeIncome inc grid, finOk x = true := by
  unfold mergeIncome
  split
  · intro x hx
    rcases List.mem_map.mp hx with ⟨r0, h0, rfl⟩
    exact finOk_incomeZero r0 (H r0 h0)
  · intro x hx
    rcases List.mem_append.mp hx with hL | hR
    · rcases List.mem_map.mp hL with ⟨r0, h0, rfl⟩
      exact finOk_incomeApply inc r0 (H r0 h0)
    · rcases List.mem_map.mp hR with ⟨i, hi, rfl⟩
      exact finOk_newIncomeRow i

theorem finOk_mergeExpenses (cats : List String) (pv : List PivotRow)
    (grid : List MRow) (H : ∀ y ∈ grid, finOk y = true) :
    ∀ x ∈ mergeExpenses cats pv grid, finOk x = true := by
  unfold mergeExpenses
  split
  · intro x hx
    rcases List.mem_map.mp hx with ⟨r0, h0, rfl⟩
    exact finOk_expenseZero r0 (H r0 h0)
  · intro x hx
    rcases List.mem_append.mp hx with hL | hR
    · rcases List.mem_map.mp hL with ⟨r0, h0, rfl⟩
      exact finOk_expenseApply cats pv r0 (H r0 h0)
    · rcases List.mem_map.mp hR with ⟨x0, hx0, rfl⟩
      exact finOk_newPivotRow x0

theorem final_of_finOk (parts : List ParticipantRow) (y : MRow)
    (hy : finOk y = true) :
    (addMissingDemo parts (postProcess y)).start_balance.isNum = true ∧
    (addMissingDemo parts (postProcess y)).end_balance.isNum = true ∧
    (addMissingDemo parts (postProcess y)).mean_balance_approx.isNum = true ∧
    (addMissingDemo parts (postProcess y)).logged_income_total.isNum = true ∧
    (addMissingDemo parts (postProcess y)).logged_income_count.isNum = true ∧
    (addMissingDemo parts (postProcess y)).logged_expense_total.isNum = true ∧
    (addMissingDemo parts (postProcess y)).logged_expense_count.isNum = true ∧
    (addMissingDemo parts (postProcess y)).mean_balance.isNum = true ∧
    (addMissingDemo parts (postProcess y)).net_logged_change.isNum = true ∧
    ((addMissingDemo parts (postProcess y)).cells.all
      fun x => x.2.1.isNum && x.2.2.isNum) = true ∧
    (addMissingDemo parts (postProcess y)).age_group.filled = true ∧
    (addMissingDemo parts (postProcess y)).joviality_group.filled = true ∧
    (addMissingDemo parts (postProcess y)).household_size_group.filled = true ∧
    (addMissingDemo parts (postProcess y)).haveKids_group.filled = true ∧
    (addMissingDemo parts (postProcess y)).educationLevel.filled = true ∧
    (addMissingDemo parts (postProcess y)).interestGroup.filled = true := by
  simp only [finOk, Bool.and_eq_true] at hy
  obtain ⟨⟨⟨⟨⟨⟨⟨h1, h2⟩, h3⟩, h4⟩, h5⟩, h6⟩, h7⟩, h8⟩ := hy
  unfold addMissingDemo
  split
  · exact ⟨isNum_fill0 _ h1, isNum_fill0 _ h2, isNum_fill0 _ h3,
      isNum_fill0 _ h4, isNum_fill0 _ h5, isNum_fill0 _ h6, isNum_fill0 _ h7,
      isNum_fill0 _ h3,
      isNum_cellSub _ _ (isNum_fill0 _ h4) (isNum_fill0 _ h6),
      all_isNum_fillCells y.cells h8, rfl, rfl, rfl, rfl, rfl, rfl⟩
  · exact ⟨isNum_fill0 _ h1, isNum_fill0 _ h2, isNum_fill0 _ h3,
      isNum_fill0 _ h4, isNum_fill0 _ h5, isNum_fill0 _ h6, isNum_fill0 _ h7,
      isNum_fill0 _ h3,
      isNum_cellSub _ _ (isNum_fill0 _ h4) (isNum_fill0 _ h6),
      all_isNum_fillCells y.cells h8,
      filled_fillUnknown _, filled_fillUnknown _, filled_fillUnknown _,
      filled_fillUnknown _, filled_fillUnknown _, filled_fillUnknown _⟩

/-!
Claim theorems.
-/

/-- C10: the age bucketing is not a function of the attribute row alone:
birthYear is the wall-clock run year minus age and the top bin edge is the
run year plus one, so the same row (age 25) lands in different generation
bands when the pipeline runs in 2021 and in 2022. -/
theorem age_group_depends_on_run_year :
    age_group 2021 (some 25) = "Millennial (1981-96)" ∧
    age_group 2022 (some 25) = "Gen Z (1997+)" ∧
    age_group 2021 (some 25) ≠ age_group 2022 (some 25) := by
  decide

/-- C6 counterexample: the claim maps every out-of-range joviality (below 0
or above 1) to "Unknown", but the code's bins are
[-inf, 0.33, 0.66, inf], so -1/2 lands in the Low band and 2 in the High
band, not in "Unknown". -/
theorem joviality_out_of_range_not_unknown :
    joviality_group (some (-(1 : Rat) / 2)) = "Low (0-0.33)" ∧
    joviality_group (some (-(1 : Rat) / 2)) ≠ "Unknown" ∧
    joviality_group (some 2) = "High (0.66+)" ∧
    joviality_group (some 2) ≠ "Unknown" := by
  have hlow : joviality_group (some (-(1 : Rat) / 2)) = "Low (0-0.33)" := by
    simp only [joviality_group]
    norm_num
  have hhigh : joviality_group (some 2) = "High (0.66+)" := by
    simp only [joviality_group]
    norm_num
  refine ⟨hlow, ?_, hhigh, ?_⟩
  · rw [hlow]; decide
  · rw [hhigh]; decide

/-- C6 (amended): the joviality bucketing maps any value below 0.33
(negatives included) to the Low band, values in [0.33, 0.66) to the Medium
band, any value of 0.66 or more (values above 1 included) to the High band,
and a missing or non-numeric value to "Unknown". -/
theorem joviality_group_bands (v1 v2 v3 : Rat)
    (h1 : v1 < 33 / 100) (h2a : 33 / 100 ≤ v2) (h2b : v2 < 66 / 100)
    (h3 : 66 / 100 ≤ v3) :
    joviality_group none = "Unknown" ∧
    joviality_group (some v1) = "Low (0-0.33)" ∧
    joviality_group (some v2) = "Medium (0.33-0.66)" ∧
    joviality_group (some v3) = "High (0.66+)" := by
  refine ⟨rfl, ?_, ?_, ?_⟩
  · simp [joviality_group, if_pos h1]
  · simp [joviality_group, if_neg (not_lt.mpr h2a), if_pos h2b]
  · have ha : ¬ v3 < 33 / 100 := not_lt.mpr (le_trans (by norm_num) h3)
    have hb : ¬ v3 < 66 / 100 := not_lt.mpr h3
    simp [joviality_group, if_neg ha, if_neg hb]

theorem joviality_group_bands_witness :
    joviality_group none = "Unknown" ∧
    joviality_group (some 0) = "Low (0-0.33)" ∧
    joviality_group (some (1 / 2)) = "Medium (0.33-0.66)" ∧
    joviality_group (some 1) = "High (0.66+)" :=
  joviality_group_bands 0 (1 / 2) 1 (by norm_num) (by norm_num) (by norm_num)
    (by norm_num)

/-- C2: the claim says that with the balance source absent and the
transaction journal non-empty the pipeline substitutes an empty balance
table and continues to an output with zero defaults.  The code does build
the empty fallback table (line 97), but line 119 then applies `.dt` to its
object-dtype Month column, which raises an uncaught AttributeError: the run
aborts with no output, income data notwithstanding. -/
theorem missing_balance_source_aborts :
    incomeTrans (journalRows [⟨some 0, 1, "Wage", 10⟩]) ≠ [] ∧
    run_pipeline 2022 [] [⟨some 0, 1, "Wage", 10⟩] [] =
      Except.error dtAccessorError := by
  constructor
  · decide
  · rfl

/-- C8: the claim says the grid falls back to the expense pivot when the
balance table is empty, and that only the all-empty case is fatal.  In the
code the fallback chain at lines 269-277 is unreachable when the balance
table is empty: line 119 has already raised on the empty table's
object-dtype Month column, so a run with balance logs that yield no
aggregates and a non-empty expense journal aborts with the AttributeError
instead of building the grid from the pivot. -/
theorem grid_priority_fallback_unreachable :
    expenseTrans (journalRows [⟨some 0, 3, "Food", -(20 : Rat)⟩]) ≠ [] ∧
    run_pipeline 2022 [[⟨none, 3, none⟩]] [⟨some 0, 3, "Food", -(20 : Rat)⟩] [] =
      Except.error dtAccessorError := by
  constructor
  · decide
  · rfl

/-- C3 counterexample: the claim says every emitted per-chunk aggregate
record carries a `sample_count` equal to the group's valid row count.  The
aggregation of lines 72-81 emits only first/last/mean: two files with 3 and
2 valid rows produce identical chunk summaries, so no function of the
emitted record can be the row count — the record does not contain it. -/
theorem chunk_summary_no_sample_count :
    chunk_summary fileA = chunk_summary fileB ∧
    (dropnaTimestamp fileA).length ≠ (dropnaTimestamp fileB).length := by
  constructor
  · simp +decide [chunk_summary, chunkAggOf, fileA, fileB, dropnaTimestamp,
      keyRows, valuedReadings, logKey, monthOf, dayOf, stableMinByKey,
      stableMaxByKey]
    norm_num
  · decide

/-- C3 (amended): for every (entityId, Period) group observed in a file the
chunk aggregation emits exactly one record, and that record carries the
three fields the code computes: first/last value of the least/greatest
timestamp among the group's valued (non-NaN) readings — assuming distinct
timestamps within the group — and the arithmetic mean of those readings.
No sample_count field is emitted (see the counterexample). -/
theorem chunk_summary_fields (file : List RawLogRow) (k : Nat × Nat)
    (tvmin tvmax : Nat × Rat)
    (hmin : tvmin ∈ valuedReadings (keyRows file k))
    (hminle : ∀ tv ∈ valuedReadings (keyRows file k), tvmin.1 ≤ tv.1)
    (hmax : tvmax ∈ valuedReadings (keyRows file k))
    (hmaxge : ∀ tv ∈ valuedReadings (keyRows file k), tv.1 ≤ tvmax.1)
    (hnd : ((valuedReadings (keyRows file k)).map Prod.fst).Nodup) :
    (chunk_summary file).map partialKey =
      ((dropnaTimestamp file).map logKey).dedup ∧
    (chunk_summary file).find? (fun p => decide (partialKey p = k)) =
      some { participantId := k.1, month := k.2,
             chunk_start_balance := some tvmin.2,
             chunk_end_balance := some tvmax.2,
             chunk_mean_balance := some
               (((valuedReadings (keyRows file k)).map Prod.snd).sum /
                 ((valuedReadings (keyRows file k)).length : Rat)) } := by
  refine ⟨chunk_summary_map_key file, ?_⟩
  rw [chunk_summary, find?_map_build _ _ _ (partialKey_chunkAggOf file) k
    (List.mem_dedup.mpr (mem_key_of_mem_valued file k tvmin hmin))]
  rw [chunkAggOf_eq file k tvmin tvmax hmin hminle hmax hmaxge hnd]

theorem chunk_summary_fields_witness :
    (chunk_summary fileB).map partialKey =
      ((dropnaTimestamp fileB).map logKey).dedup ∧
    (chunk_summary fileB).find? (fun p => decide (partialKey p = (1, 0))) =
      some { participantId := 1, month := 0,
             chunk_start_balance := some ((0, (1 : Rat))).2,
             chunk_end_balance := some ((4, (3 : Rat))).2,
             chunk_mean_balance := some
               (((valuedReadings (keyRows fileB (1, 0))).map Prod.snd).sum /
                 ((valuedReadings (keyRows fileB (1, 0))).length : Rat)) } :=
  chunk_summary_fields fileB (1, 0) (0, 1) (4, 3) (by decide) (by decide)
    (by decide) (by decide) (by decide)

/-- C1: for an EntityPeriodKey whose rows all lie in the single file at
index `i`, the merged table — computed from any permutation `files'` of the
discovered files — carries the value of the globally earliest-timestamp
reading as start_balance and of the globally latest as end_balance
(timestamps assumed distinct within the key; the readings considered are
the non-NaN ones, which are all pandas first/last can return).  The
right-hand side is written against the canonical `files` order only, so the
result is independent of the discovery order. -/
theorem merged_balance_single_file_exact
    (files files' : List (List RawLogRow)) (k : Nat × Nat) (i : Nat)
    (hi : i < files.length)
    (hconf : ∀ j, (hj : j < files.length) → j ≠ i →
      keyRows (files.get ⟨j, hj⟩) k = [])
    (hperm : files'.Perm files)
    (tvmin tvmax : Nat × Rat)
    (hmin : tvmin ∈ globalReadings files k)
    (hminle : ∀ tv ∈ globalReadings files k, tvmin.1 ≤ tv.1)
    (hmax : tvmax ∈ globalReadings files k)
    (hmaxge : ∀ tv ∈ globalReadings files k, tv.1 ≤ tvmax.1)
    (hnd : ((globalReadings files k).map Prod.fst).Nodup) :
    (monthly_balances files').find? (fun b => decide (balanceKey b = k)) =
      some { participantId := k.1, month := k.2,
             start_balance := some tvmin.2,
             end_balance := some tvmax.2,
             mean_balance_approx := some
               (((globalReadings files k).map Prod.snd).sum /
                 ((globalReadings files k).length : Rat)) } := by
  have hA : globalKeyRows files k = keyRows (files.get ⟨i, hi⟩) k := by
    have hlen : i < (files.map (fun f => keyRows f k)).length := by simpa using hi
    have hsingle := flatten_eq_of_single (files.map (fun f => keyRows f k)) i hlen
      (fun j hj hne => by
        rw [List.get_map]
        exact hconf j (by simpa using hj) hne)
    rw [globalKeyRows, fileRows, filter_flatten_comm, List.map_map]
    rw [show (List.filter (fun r => decide (logKey r = k)) ∘ dropnaTimestamp) =
      (fun f => keyRows f k) from rfl]
    rw [hsingle, List.get_map]
  have h1 : valuedReadings (keyRows (files.get ⟨i, hi⟩) k) =
      globalReadings files k := by
    rw [globalReadings, hA]
  have hkmem : k ∈ (dropnaTimestamp (files.get ⟨i, hi⟩)).map logKey :=
    mem_key_of_mem_valued _ k tvmin (h1.symm ▸ hmin)
  have hB : (allPartials files).filter (fun p => decide (partialKey p = k)) =
      [chunkAggOf (files.get ⟨i, hi⟩) k] := by
    have hlen : i < (files.map
        (List.filter (fun p => decide (partialKey p = k)) ∘ chunk_summary)).length := by
      simpa using hi
    rw [allPartials, filter_flatten_comm, List.map_map]
    rw [flatten_eq_of_single _ i hlen (fun j hj hne => by
      rw [List.get_map]
      exact chunk_summary_filter_nil _ k
        ((keyRows_eq_nil_iff _ k).mp (hconf j (by simpa using hj) hne)))]
    rw [List.get_map]
    exact chunk_summary_filter_singleton _ k hkmem
  have hC : (allPartials files').filter (fun p => decide (partialKey p = k)) =
      [chunkAggOf (files.get ⟨i, hi⟩) k] := by
    refine List.perm_singleton.mp ?_
    rw [← hB]
    exact ((hperm.map chunk_summary).flatten.filter _)
  have hagg := chunkAggOf_eq (files.get ⟨i, hi⟩) k tvmin tvmax
    (h1.symm ▸ hmin) (h1.symm ▸ hminle) (h1.symm ▸ hmax) (h1.symm ▸ hmaxge)
    (h1.symm ▸ hnd)
  rw [h1] at hagg
  have hkmem2 : k ∈ ((allPartials files').map partialKey).dedup := by
    have hx : chunkAggOf (files.get ⟨i, hi⟩) k ∈
        (allPartials files').filter (fun p => decide (partialKey p = k)) := by
      rw [hC]
      exact List.mem_singleton_self _
    have hmem2 := (List.mem_filter.mp hx).1
    refine List.mem_dedup.mpr ?_
    have := List.mem_map_of_mem partialKey hmem2
    rwa [partialKey_chunkAggOf] at this
  rw [monthly_balances]
  rw [find?_map_build _ _ balanceKey (balanceKey_balanceRowOf _) k hkmem2]
  rw [balanceRowOf_singleton _ k _ hC, hagg]
  simp [firstSome_singleton, lastSome_singleton, meanSome_singleton]

/-- C7: for every row of the expense pivot, the derived `logged_expense_total`
equals the sum of all per-category amount cells of the row, and in fact the
sum of all expense transactions of that (entityId, Period) key; likewise
`logged_expense_count` equals the sum of the per-category count cells and
the key's transaction count; and a structurally absent
(entity, period, category) cell holds the real pair (0, 0), not a missing
marker. -/
theorem expense_pivot_row_sums (raw : List RawJournalRow) (p m : Nat)
    (hpm : (p, m) ∈ pivotKeys (expenseTrans (journalRows raw)))
    (c : String) (hc : c ∈ expCats raw)
    (habs : keyCatExpenses raw (p, m) c = []) :
    (df_expenses_pivot raw).find? (fun x => decide (pivotKey x = (p, m))) =
      some (pivotRowOf raw (p, m)) ∧
    (pivotRowOf raw (p, m)).logged_expense_total =
      ((keyExpenses raw (p, m)).map fun r => r.amount).sum ∧
    (pivotRowOf raw (p, m)).logged_expense_count =
      (keyExpenses raw (p, m)).length ∧
    (pivotRowOf raw (p, m)).cells.find? (fun x => decide (x.1 = c)) =
      some (c, 0, 0) ∧
    (pivotRowOf raw (p, m)).logged_expense_total =
      ((pivotRowOf raw (p, m)).cells.map fun x => x.2.1).sum ∧
    (pivotRowOf raw (p, m)).logged_expense_count =
      ((pivotRowOf raw (p, m)).cells.map fun x => x.2.2).sum := by
  have hcov : ∀ r ∈ keyExpenses raw (p, m), r.category ∈ expCats raw :=
    fun r hr =>
      cat_mem_expCats raw r (List.mem_filter.mp (List.mem_filter.mp hr).1).1
  refine ⟨?_, ?_, ?_, ?_, ?_, ?_⟩
  · rw [df_expenses_pivot]
    exact find?_map_build _ _ pivotKey (fun k => by simp [pivotKey, pivotRowOf])
      _ hpm
  · show (((expCats raw).map fun c0 =>
        (c0, ((keyCatExpenses raw (p, m) c0).map fun r => r.amount).sum,
          (keyCatExpenses raw (p, m) c0).length)).map fun x => x.2.1).sum = _
    rw [List.map_map]
    simp only [Function.comp_def, keyCatExpenses_eq]
    exact sum_filter_partition (fun r => r.amount) (fun r => r.category)
      (keyExpenses raw (p, m)) (expCats raw) (List.nodup_dedup _) hcov
  · show (((expCats raw).map fun c0 =>
        (c0, ((keyCatExpenses raw (p, m) c0).map fun r => r.amount).sum,
          (keyCatExpenses raw (p, m) c0).length)).map fun x => x.2.2).sum = _
    rw [List.map_map]
    simp only [Function.comp_def, keyCatExpenses_eq]
    exact length_filter_partition (fun r => r.category)
      (keyExpenses raw (p, m)) (expCats raw) (List.nodup_dedup _) hcov
  · show (((expCats raw).map fun c0 =>
        (c0, ((keyCatExpenses raw (p, m) c0).map fun r => r.amount).sum,
          (keyCatExpenses raw (p, m) c0).length)).find?
        fun x => decide (x.1 = c)) = some (c, 0, 0)
    rw [find?_map_build (expCats raw)
      (fun c0 => (c0, ((keyCatExpenses raw (p, m) c0).map fun r => r.amount).sum,
        (keyCatExpenses raw (p, m) c0).length))
      (fun x : String × Rat × Nat => x.1) (fun c0 => rfl) c hc, habs]
    simp
  · rfl
  · rfl

theorem expense_pivot_row_sums_witness :
    (df_expenses_pivot journalE).find?
        (fun x => decide (pivotKey x = (5, 0))) =
      some (pivotRowOf journalE (5, 0)) ∧
    (pivotRowOf journalE (5, 0)).logged_expense_total =
      ((keyExpenses journalE (5, 0)).map fun r => r.amount).sum ∧
    (pivotRowOf journalE (5, 0)).logged_expense_count =
      (keyExpenses journalE (5, 0)).length ∧
    (pivotRowOf journalE (5, 0)).cells.find?
        (fun x => decide (x.1 = "Wage")) = some ("Wage", 0, 0) ∧
    (pivotRowOf journalE (5, 0)).logged_expense_total =
      ((pivotRowOf journalE (5, 0)).cells.map fun x => x.2.1).sum ∧
    (pivotRowOf journalE (5, 0)).logged_expense_count =
      ((pivotRowOf journalE (5, 0)).cells.map fun x => x.2.2).sum :=
  expense_pivot_row_sums journalE 5 0 (by decide) "Wage" (by decide) (by decide)

theorem merged_balance_single_file_exact_witness :
    (monthly_balances [fileD, fileC]).find?
        (fun b => decide (balanceKey b = (2, 0))) =
      some { participantId := 2, month := 0,
             start_balance := some ((1, (10 : Rat))).2,
             end_balance := some ((5, (20 : Rat))).2,
             mean_balance_approx := some
               (((globalReadings [fileC, fileD] (2, 0)).map Prod.snd).sum /
                 ((globalReadings [fileC, fileD] (2, 0)).length : Rat)) } :=
  merged_balance_single_file_exact [fileC, fileD] [fileD, fileC] (2, 0) 0
    (by decide) (by decide) (by decide) (1, 10) (5, 20) (by decide) (by decide)
    (by decide) (by decide) (by decide)

/-- C9: in the employment sub-pipeline, (a) the daily record of a
(participant, day) whose latest employed reading is (t0, e) — no later
reading of that day being employed, timestamps of the employed readings
distinct — carries exactly employer e; (b) a (participant, day) with no
employed reading contributes no employed record at all; (c) the headcount
row of an (employerId, month) with at least one employed record counts the
distinct participants with a record in that month; and (d) an
(employerId, month) with no employed record is absent from the headcount
table, not present with count 0. -/
theorem employment_daily_last_and_headcount (logs : List RawWorkRow)
    (p d e t0 p2 d2 E m E2 m2 : Nat)
    (ht : (t0, e) ∈ employerReadings (dayRows logs (p, d)))
    (hafter : ∀ te ∈ employerReadings (dayRows logs (p, d)), te.1 ≤ t0)
    (hndT : ((employerReadings (dayRows logs (p, d))).map Prod.fst).Nodup)
    (hempty : employerReadings (dayRows logs (p2, d2)) = [])
    (hobsC : (E, m) ∈ (work_records logs).map companyKey)
    (habsC : (E2, m2) ∉ (work_records logs).map companyKey) :
    (df_daily logs).find? (fun x => decide (dailyKey x = (p, d))) =
      some { participantId := p, date := d, currentEmployer := some e } ∧
    (work_records logs).filter (fun r => decide ((r.1, r.2.1) = (p2, d2))) = [] ∧
    (workers_by_company logs).find? (fun w => decide ((w.1, w.2.1) = (E, m))) =
      some (E, m,
        (((work_records logs).filter fun r =>
          decide (companyKey r = (E, m))).map fun r => r.1).toFinset.card) ∧
    (workers_by_company logs).find?
      (fun w => decide ((w.1, w.2.1) = (E2, m2))) = none := by
  refine ⟨?_, ?_, ?_, ?_⟩
  · have hobs : (p, d) ∈ (dropnaWork logs).map workKey :=
      mem_workKey_of_mem_employed logs (p, d) (t0, e) ht
    rw [df_daily, find?_map_build _ _ dailyKey (dailyKey_dailyRowOf logs) _
      (List.mem_dedup.mpr hobs)]
    rw [dailyRowOf, stableMaxByKey_spec Prod.fst _ (t0, e) ht hafter hndT]
    rfl
  · rw [List.filter_eq_nil_iff]
    intro x hx
    simp only [decide_eq_true_eq]
    intro heq
    rcases List.mem_filterMap.mp hx with ⟨dr, hdr, hde⟩
    cases hce : dr.currentEmployer with
    | none => rw [hce] at hde; simp at hde
    | some e0 =>
      rw [hce] at hde
      simp only [Option.map_some', Option.some.injEq] at hde
      rw [df_daily] at hdr
      rcases List.mem_map.mp hdr with ⟨k, hk, hkdr⟩
      have hpid : dr.participantId = k.1 := by rw [← hkdr]; rfl
      have hdate : dr.date = k.2 := by rw [← hkdr]; rfl
      rw [← hde] at heq
      have h1 : dr.participantId = p2 := congrArg Prod.fst heq
      have h2 : dr.date = d2 := congrArg Prod.snd heq
      have hkp : k = (p2, d2) :=
        Prod.ext_iff.mpr ⟨hpid.symm.trans h1, hdate.symm.trans h2⟩
      have hemp : dr.currentEmployer = none := by
        rw [← hkdr]
        show (stableMaxByKey Prod.fst
          (employerReadings (dayRows logs k))).map Prod.snd = none
        rw [hkp, hempty]
        rfl
      rw [hemp] at hce
      exact Option.noConfusion hce
  · rw [workers_by_company, find?_map_build _ _ (fun w : Nat × Nat × Nat => (w.1, w.2.1))
      (fun k => by simp [companyRowOf]) _ (List.mem_dedup.mpr hobsC)]
    rw [companyRowOf, List.card_toFinset]
  · rw [workers_by_company]
    exact find?_map_build_eq_none _ _ (fun w : Nat × Nat × Nat => (w.1, w.2.1))
      (fun k => by simp [companyRowOf]) _
      (fun h => habsC (List.mem_dedup.mp h))

/-- C4 counterexample: participant 1 has a row in the attribute table, yet
the final (1, month 1) row — introduced only by the expense outer join,
after the demographics were already merged — carries "Unknown" in every
demographic group column instead of participant 1's values. -/
theorem grown_row_unknown_demographics :
    (partsG.find? (fun q => decide (q.participantId = 1))).isSome = true ∧
    (((run_pipeline 2022 filesG journalG partsG).toOption.getD []).find?
        (fun r => decide (mKey r = (1, 1)))).map demoCells =
      some demoUnknown ∧
    some demoUnknown ≠ some (demoBroadcast 2022
      ⟨1, some 2, some true, some 30, some "College", some "A", some 0⟩) := by
  refine ⟨by decide, by decide, ?_⟩
  simp only [demoUnknown, demoBroadcast, age_group]
  decide

/-- C5 counterexample: with participant 2 absent from the (non-empty)
attribute table, the final (2, month 0) row keeps a NaN in the raw `age`
column — the fill lists of lines 311-333 cover the group columns but not
the raw attribute columns — so a missing marker does remain in the final
output, against the claim. -/
theorem raw_age_not_filled :
    partsH ≠ [] ∧
    (((run_pipeline 2022 filesH [] partsH).toOption.getD []).find?
        (fun r => decide (mKey r = (2, 0)))).map (fun r => (r.age, r.age_group)) =
      some (CellV.missing, CellV.str "Unknown") := by
  exact ⟨by decide, by decide⟩

/-- C4 (amended): demographics are broadcast by entityId to the rows of the
base balance grid — the row of any base-grid EntityPeriodKey whose entity
has an attribute row carries that entity's bucketed demographic values —
but a row whose key was introduced only by the income or expense outer
joins (it is in the output yet not in the base grid) carries the "Unknown"
defaults in every demographic group column, even when its entity has an
attribute row. -/
theorem demographics_broadcast_base_grid
    (cy : Int) (files : List (List RawLogRow)) (journal : List RawJournalRow)
    (parts : List ParticipantRow) (rows : List MRow)
    (hok : run_pipeline cy files journal parts = Except.ok rows)
    (k : Nat × Nat) (hbase : k ∈ baseKeys files)
    (p : ParticipantRow)
    (hp : parts.find? (fun q => decide (q.participantId = k.1)) = some p)
    (k2 : Nat × Nat) (hk2mem : k2 ∈ rows.map mKey)
    (hnotbase : k2 ∉ baseKeys files) :
    ((rows.find? (fun r => decide (mKey r = k))).map demoCells) =
      some (demoBroadcast cy p) ∧
    ((rows.find? (fun r => decide (mKey r = k2))).map demoCells) =
      some demoUnknown := by
  obtain ⟨hne, hrowseq⟩ := run_pipeline_ok cy files journal parts rows hok
  set grid := mbToGrid (monthly_balances files) with hgrid
  set g1 := mergeDemo cy parts grid with hg1
  set g2 := mergeIncome (df_income journal) g1 with hg2
  set g3 := mergeExpenses (expCats journal) (df_expenses_pivot journal) g2
    with hg3
  have hpne : ¬ parts.isEmpty := by
    cases parts with
    | nil => exact absurd hp (by simp)
    | cons a l => simp
  -- the balance row of key k
  have hmbs : ((monthly_balances files).find?
      (fun b => decide (balanceKey b = k))).isSome := by
    rw [List.find?_isSome]
    rcases List.mem_map.mp hbase with ⟨b, hb, rfl⟩
    exact ⟨b, hb, by simp⟩
  obtain ⟨b0, hb0⟩ := Option.isSome_iff_exists.mp hmbs
  have hb0key : balanceKey b0 = k := by simpa using List.find?_some hb0
  have hgridf : grid.find? (fun r => decide (mKey r = k)) =
      some
        { participantId := b0.participantId, month := b0.month,
          start_balance := ofOptRat b0.start_balance,
          end_balance := ofOptRat b0.end_balance,
          mean_balance_approx := ofOptRat b0.mean_balance_approx } := by
    rw [hgrid, mbToGrid,
      find?_map_keyPres
        (fun b : BalanceRow =>
          ({ participantId := b.participantId, month := b.month,
             start_balance := ofOptRat b.start_balance,
             end_balance := ofOptRat b.end_balance,
             mean_balance_approx := ofOptRat b.mean_balance_approx } : MRow))
        balanceKey mKey (fun x => rfl) _ k, hb0]
    rfl
  set r0 : MRow :=
    { participantId := b0.participantId, month := b0.month,
      start_balance := ofOptRat b0.start_balance,
      end_balance := ofOptRat b0.end_balance,
      mean_balance_approx := ofOptRat b0.mean_balance_approx } with hr0
  have happ : demoApply cy parts r0 = demoUpdate cy p r0 := by
    unfold demoApply
    have hpid : r0.participantId = k.1 := congrArg Prod.fst hb0key
    rw [hpid, hp]
  have hg1f : g1.find? (fun r => decide (mKey r = k)) =
      some (demoApply cy parts r0) := by
    rw [hg1]
    unfold mergeDemo
    rw [if_neg hpne,
      find?_map_keyPres (demoApply cy parts) mKey mKey
        (mKey_demoApply cy parts) _ k, hgridf]
    rfl
  obtain ⟨y2, hy2f, hy2d⟩ : ∃ y2,
      g2.find? (fun r => decide (mKey r = k)) = some y2 ∧
      demoCells y2 = demoBroadcast cy p := by
    by_cases hinc : (df_income journal).isEmpty
    · refine ⟨incomeZero (demoApply cy parts r0), ?_, ?_⟩
      · rw [hg2]
        unfold mergeIncome
        rw [if_pos hinc,
          find?_map_keyPres incomeZero mKey mKey (fun x => rfl) _ k, hg1f]
        rfl
      · rw [demoCells_incomeZero, happ, demoCells_demoUpdate]
    · refine ⟨incomeApply (df_income journal) (demoApply cy parts r0), ?_, ?_⟩
      · rw [hg2]
        unfold mergeIncome
        rw [if_neg hinc]
        refine find?_append_left _ _ _ _ ?_
        rw [find?_map_keyPres (incomeApply (df_income journal)) mKey mKey
          (mKey_incomeApply (df_income journal)) _ k, hg1f]
        rfl
      · rw [demoCells_incomeApply, happ, demoCells_demoUpdate]
  obtain ⟨y3, hy3f, hy3d⟩ : ∃ y3,
      g3.find? (fun r => decide (mKey r = k)) = some y3 ∧
      demoCells y3 = demoBroadcast cy p := by
    by_cases hpv : (df_expenses_pivot journal).isEmpty
    · refine ⟨expenseZero y2, ?_, ?_⟩
      · rw [hg3]
        unfold mergeExpenses
        rw [if_pos hpv,
          find?_map_keyPres expenseZero mKey mKey (fun x => rfl) _ k, hy2f]
        rfl
      · rw [demoCells_expenseZero, hy2d]
    · refine ⟨expenseApply (expCats journal) (df_expenses_pivot journal) y2,
        ?_, ?_⟩
      · rw [hg3]
        unfold mergeExpenses
        rw [if_neg hpv]
        refine find?_append_left _ _ _ _ ?_
        rw [find?_map_keyPres
          (expenseApply (expCats journal) (df_expenses_pivot journal)) mKey
          mKey (mKey_expenseApply (expCats journal) (df_expenses_pivot journal))
          _ k, hy2f]
        rfl
      · rw [demoCells_expenseApply, hy2d]
  have hrowsf : rows.find? (fun r => decide (mKey r = k)) =
      some (addMissingDemo parts (postProcess y3)) := by
    rw [hrowseq,
      find?_map_keyPres (addMissingDemo parts) mKey mKey
        (mKey_addMissingDemo parts) _ k,
      find?_map_keyPres postProcess mKey mKey (fun x => rfl) _ k, hy3f]
    rfl
  constructor
  · rw [hrowsf, Option.map_some', addMissingDemo_of_ne parts _ hpne,
      demoCells_post_broadcast cy p y3 hy3d]
  · have hr2s : (rows.find? (fun r => decide (mKey r = k2))).isSome := by
      rw [List.find?_isSome]
      rcases List.mem_map.mp hk2mem with ⟨r2, hr2, rfl⟩
      exact ⟨r2, hr2, by simp⟩
    obtain ⟨r2, hr2f⟩ := Option.isSome_iff_exists.mp hr2s
    have hr2mem := List.mem_of_find?_eq_some hr2f
    have hr2key : mKey r2 = k2 := by simpa using List.find?_some hr2f
    rw [hrowseq] at hr2mem
    rcases List.mem_map.mp hr2mem with ⟨r3p, h3p, h3pe⟩
    rcases List.mem_map.mp h3p with ⟨r3, h3, h3e⟩
    have hk3 : mKey r3 ∉ baseKeys files := by
      have : mKey r3 = k2 := by
        rw [← hr2key, ← h3pe, ← h3e, mKey_addMissingDemo, mKey_postProcess]
      rw [this]
      exact hnotbase
    have hbase1 : ∀ y ∈ g1, mKey y ∉ baseKeys files → demoCells y = demoNaN := by
      intro y hy hnk
      exfalso
      apply hnk
      have hmem := keys_mergeDemo_sub cy parts grid y hy
      rw [hgrid, keys_mbToGrid] at hmem
      exact hmem
    have hN2 := demoNaN_mergeIncome (df_income journal) g1 hbase1
    have hN3 := demoNaN_mergeExpenses (expCats journal)
      (df_expenses_pivot journal) g2 hN2
    have hd3 : demoCells r3 = demoNaN := hN3 r3 h3 hk3
    rw [hr2f, Option.map_some', ← h3pe, ← h3e,
      demoCells_addMissing_unknown parts _ (demoCells_post_unknown r3 hd3)]

/-- C5 (amended): in every row the pipeline outputs, every numeric financial
cell — the balance columns, the income and expense totals and counts, the
derived mean and net-change columns and every per-category cell — holds a
real number (zero-filled where it was absent), and the six group/category
columns (age_group, joviality_group, household_size_group, haveKids_group,
educationLevel, interestGroup) hold no missing marker.  The raw attribute
columns age, householdSize, haveKids and joviality are in neither fill
list and may keep a missing marker (see the counterexample). -/
theorem final_fill_coverage (cy : Int) (files : List (List RawLogRow))
    (journal : List RawJournalRow) (parts : List ParticipantRow)
    (rows : List MRow)
    (hok : run_pipeline cy files journal parts = Except.ok rows)
    (r : MRow) (hr : r ∈ rows) :
    r.start_balance.isNum = true ∧ r.end_balance.isNum = true ∧
    r.mean_balance_approx.isNum = true ∧
    r.logged_income_total.isNum = true ∧ r.logged_income_count.isNum = true ∧
    r.logged_expense_total.isNum = true ∧
    r.logged_expense_count.isNum = true ∧
    r.mean_balance.isNum = true ∧ r.net_logged_change.isNum = true ∧
    (r.cells.all fun x => x.2.1.isNum && x.2.2.isNum) = true ∧
    r.age_group.filled = true ∧ r.joviality_group.filled = true ∧
    r.household_size_group.filled = true ∧ r.haveKids_group.filled = true ∧
    r.educationLevel.filled = true ∧ r.interestGroup.filled = true := by
  obtain ⟨hne, hrowseq⟩ := run_pipeline_ok cy files journal parts rows hok
  rw [hrowseq] at hr
  rcases List.mem_map.mp hr with ⟨rp, hrp, hrpe⟩
  rcases List.mem_map.mp hrp with ⟨r3, h3, h3e⟩
  have hfin : finOk r3 = true := by
    refine finOk_mergeExpenses _ _ _ ?_ r3 h3
    refine finOk_mergeIncome _ _ ?_
    refine finOk_mergeDemo _ _ _ ?_
    exact finOk_mbToGrid _
  have hfinal := final_of_finOk parts r3 hfin
  rw [← hrpe, ← h3e]
  exact hfinal

theorem final_fill_coverage_witness :
    (rowsI.headD dRow).start_balance.isNum = true ∧
    (rowsI.headD dRow).end_balance.isNum = true ∧
    (rowsI.headD dRow).mean_balance_approx.isNum = true ∧
    (rowsI.headD dRow).logged_income_total.isNum = true ∧
    (rowsI.headD dRow).logged_income_count.isNum = true ∧
    (rowsI.headD dRow).logged_expense_total.isNum = true ∧
    (rowsI.headD dRow).logged_expense_count.isNum = true ∧
    (rowsI.headD dRow).mean_balance.isNum = true ∧
    (rowsI.headD dRow).net_logged_change.isNum = true ∧
    ((rowsI.headD dRow).cells.all fun x => x.2.1.isNum && x.2.2.isNum) = true ∧
    (rowsI.headD dRow).age_group.filled = true ∧
    (rowsI.headD dRow).joviality_group.filled = true ∧
    (rowsI.headD dRow).household_size_group.filled = true ∧
    (rowsI.headD dRow).haveKids_group.filled = true ∧
    (rowsI.headD dRow).educationLevel.filled = true ∧
    (rowsI.headD dRow).interestGroup.filled = true :=
  final_fill_coverage 2022 filesI [] partsH rowsI rfl (rowsI.headD dRow)
    (headD_mem_of_ne_nil rowsI dRow (by decide))

theorem demographics_broadcast_base_grid_witness :
    ((rowsG.find? (fun r => decide (mKey r = (1, 0)))).map demoCells) =
      some (demoBroadcast 2022
        ⟨1, some 2, some true, some 30, some "College", some "A", some 0⟩) ∧
    ((rowsG.find? (fun r => decide (mKey r = (1, 1)))).map demoCells) =
      some demoUnknown :=
  demographics_broadcast_base_grid 2022 filesG journalG partsG rowsG rfl
    (1, 0) (by decide)
    ⟨1, some 2, some true, some 30, some "College", some "A", some 0⟩
    (by decide) (1, 1) (by decide) (by decide)

theorem employment_daily_last_and_headcount_witness :
    (df_daily logsW).find? (fun x => decide (dailyKey x = (9, 0))) =
      some { participantId := 9, date := 0, currentEmployer := some 7 } ∧
    (work_records logsW).filter (fun r => decide ((r.1, r.2.1) = (9, 40))) = [] ∧
    (workers_by_company logsW).find? (fun w => decide ((w.1, w.2.1) = (7, 0))) =
      some (7, 0,
        (((work_records logsW).filter fun r =>
          decide (companyKey r = (7, 0))).map fun r => r.1).toFinset.card) ∧
    (workers_by_company logsW).find?
      (fun w => decide ((w.1, w.2.1) = (7, 1))) = none :=
  employment_daily_last_and_headcount logsW 9 0 7 1 9 40 7 0 7 1 (by decide)
    (by decide) (by decide) (by decide) (by decide) (by decide)

end Vast22
